import Mathlib

/-
Verification of the aersia-hoshii download orchestration core.

Shallow embedding of:
  - the persistent state store (StateManager, src/unnamed/part_004: the
    variant with per-playlist counts, malformed-id repair and the
    file-existence reconciliation pass in getPendingTracks),
  - the download engine's failure handling and retry policy
    (DownloadManager, src/src/services/download.service.ts),
  - the token-bucket rate limiter (src/src/utils/rate-limiter.ts),
  - the legacy XML track conversion heuristic
    (PlaylistService.convertOldPlaylistTracks, src/src/services/playlist.service.ts).

JavaScript strings are Lean Strings; JS string helpers that Lean cannot
kernel-evaluate (split, toLowerCase) are re-implemented over character
lists so concrete instances are decidable.  Optional TS fields are
Options; the JS falsy-coalescing idiom (x || d) on these fields is
modelled field by field where it occurs.  Wall-clock reads (Date.now,
new Date()) are explicit parameters; Math.random draws are an explicit
oracle of strings threaded through the one function that uses them.
-/

set_option autoImplicit false

/-- Leftmost, non-overlapping split of a character list on a separator,
with the JS String.prototype.split semantics used by the sources
(split on " - " and on "/").  The fuel argument is an upper bound on
the number of recursive steps; callers pass enough for the whole input. -/
def splitFuel (sep : List Char) : Nat → List Char → List Char → List (List Char)
  | 0, acc, _ => [acc.reverse]
  | fuel + 1, acc, l =>
    if sep ≠ [] ∧ sep.isPrefixOf l then
      acc.reverse :: splitFuel sep fuel [] (l.drop sep.length)
    else
      match l with
      | [] => [acc.reverse]
      | c :: rest => splitFuel sep fuel (c :: acc) rest

/-- String form of `splitFuel`; models the JS s.split(sep) calls of the sources. -/
def splitOnStr (sep s : String) : List String :=
  (splitFuel sep.data (s.data.length + sep.data.length) [] s.data).map String.mk

/-- Lowercasing, modelling JS toLowerCase on the ASCII file names involved. -/
def lowerStr (s : String) : String :=
  String.mk (s.data.map Char.toLower)

/-- Last path segment, modelling path.basename on the (POSIX) paths the
state store builds with path.join. -/
def basenameStr (p : String) : String :=
  (splitOnStr "/" p).getLastD p

/-- Track status enumeration from src/src/models/track.model.ts. -/
inductive TrackStatus where
  | pending
  | inProgress
  | completed
  | failed
  | skipped
  deriving DecidableEq

/-- Metadata triple written to the tagged file (TrackMetadata in
track.model.ts; album and year are optional there). -/
structure TrackMetadata where
  title : String
  artist : String
  album : Option String
  year : Option String
  deriving DecidableEq

/-- Track record from track.model.ts.  The state-tracking fields are
optional in TS and stay optional here; sourceTrack (an opaque reference
to the manifest entry) is dropped as no verified operation reads it. -/
structure Track where
  id : String
  playlistName : String
  title : String
  artist : Option String
  downloadUrl : String
  fileName : String
  filePath : String
  fileExt : String
  metadata : TrackMetadata
  status : Option TrackStatus
  bytesDownloaded : Option Nat
  totalBytes : Option Nat
  retryCount : Option Nat
  lastError : Option String
  deriving DecidableEq

/-- Global aggregate counters (DownloadState.overallProgress), also the
shape returned by getPlaylistStats. -/
structure OverallProgress where
  total : Nat
  completed : Nat
  failed : Nat
  pending : Nat
  deriving DecidableEq

/-- Per-playlist record of the part_004 DownloadState (tracks plus the
cached counts added in that variant).  lastUpdated is a timestamp. -/
structure PlaylistRecord where
  tracks : List Track
  completed : Bool
  lastUpdated : Nat
  totalCount : Nat
  completedCount : Nat
  pendingCount : Nat
  failedCount : Nat
  deriving DecidableEq

/-- Persistent state document (DownloadState in part_004).  The JS
object map of playlists is an association list in insertion order;
resumeData is dropped as no verified operation reads it. -/
structure DownloadState where
  playlists : List (String × PlaylistRecord)
  currentPlaylist : String
  overallProgress : OverallProgress
  startTime : Nat
  deriving DecidableEq

/-- Lookup of this.state.playlists[name] (first entry with the key). -/
def findPlaylist (name : String) : List (String × PlaylistRecord) → Option PlaylistRecord
  | [] => none
  | p :: ps => if p.1 = name then some p.2 else findPlaylist name ps

/-- In-place mutation of this.state.playlists[name] (first entry with the key). -/
def modifyPlaylist (name : String) (f : PlaylistRecord → PlaylistRecord) :
    List (String × PlaylistRecord) → List (String × PlaylistRecord)
  | [] => []
  | p :: ps => if p.1 = name then (p.1, f p.2) :: ps else p :: modifyPlaylist name f ps

/-- Tracks of the named playlist, empty when the playlist is absent. -/
def tracksOf (name : String) (s : DownloadState) : List Track :=
  ((findPlaylist name s.playlists).map PlaylistRecord.tracks).getD []

/-- Status switch of recalculatePlaylistCounts: (completed, failed, pending)
counts; COMPLETED and SKIPPED count as completed, PENDING and IN_PROGRESS as
pending, an absent status matches no case and is not counted. -/
def countTriple : List Track → Nat × Nat × Nat
  | [] => (0, 0, 0)
  | t :: ts =>
    let r := countTriple ts
    match t.status with
    | some TrackStatus.completed => (r.1 + 1, r.2.1, r.2.2)
    | some TrackStatus.skipped => (r.1 + 1, r.2.1, r.2.2)
    | some TrackStatus.failed => (r.1, r.2.1 + 1, r.2.2)
    | some TrackStatus.pending => (r.1, r.2.1, r.2.2 + 1)
    | some TrackStatus.inProgress => (r.1, r.2.1, r.2.2 + 1)
    | none => r

/-- Body of StateManager.recalculatePlaylistCounts applied to one playlist
record: refreshes the three cached counts and the derived completed flag
(every track COMPLETED or SKIPPED). -/
def recalcCountsFn (pl : PlaylistRecord) : PlaylistRecord :=
  let r := countTriple pl.tracks
  { pl with
    completedCount := r.1
    failedCount := r.2.1
    pendingCount := r.2.2
    completed := pl.tracks.all fun t =>
      decide (t.status = some TrackStatus.completed ∨ t.status = some TrackStatus.skipped) }

/-- StateManager.recalculatePlaylistCounts: a no-op when the playlist is absent. -/
def recalculatePlaylistCounts (name : String) (s : DownloadState) : DownloadState :=
  { s with playlists := modifyPlaylist name recalcCountsFn s.playlists }

/-- Sum of the per-playlist cached counters (part_004 recalculateProgress). -/
def progressOf (ls : List (String × PlaylistRecord)) : OverallProgress :=
  { total := (ls.map fun p => p.2.totalCount).sum
    completed := (ls.map fun p => p.2.completedCount).sum
    failed := (ls.map fun p => p.2.failedCount).sum
    pending := (ls.map fun p => p.2.pendingCount).sum }

/-- StateManager.recalculateProgress. -/
def recalculateProgress (s : DownloadState) : DownloadState :=
  { s with overallProgress := progressOf s.playlists }

/-- First track with the given id (the findIndex lookup of updateTrackStatus). -/
def firstWithId (trackId : String) : List Track → Option Track
  | [] => none
  | t :: ts => if t.id = trackId then some t else firstWithId trackId ts

/-- In-place mutation of the first track with the given id. -/
def updateFirstTrack (trackId : String) (f : Track → Track) : List Track → List Track
  | [] => []
  | t :: ts => if t.id = trackId then f t :: ts else t :: updateFirstTrack trackId f ts

/-- Per-track mutation performed by updateTrackStatus: set the status, set
bytesDownloaded when the argument was supplied, and on a FAILED transition
increment the retry count (undefined counts as 0) and record the error
message (or clear it when the error argument was omitted). -/
def applyStatusUpdate (status : TrackStatus) (bytesDownloaded : Option Nat)
    (error : Option String) (t : Track) : Track :=
  let t1 := { t with status := some status }
  let t2 :=
    match bytesDownloaded with
    | some b => { t1 with bytesDownloaded := some b }
    | none => t1
  if status = TrackStatus.failed then
    { t2 with retryCount := some (t2.retryCount.getD 0 + 1), lastError := error }
  else t2

/-- StateManager.updateTrackStatus (part_004 lines 222-272): a no-op when the
playlist or the track id is unknown; otherwise mutates the track, stamps the
playlist's lastUpdated with the current time, recomputes the playlist counts
and the overall progress.  The saveState disk write is outside the model. -/
def updateTrackStatus (playlistName trackId : String) (status : TrackStatus)
    (bytesDownloaded : Option Nat) (error : Option String) (now : Nat)
    (s : DownloadState) : DownloadState :=
  match findPlaylist playlistName s.playlists with
  | none => s
  | some pl =>
    if (firstWithId trackId pl.tracks).isSome then
      let f := fun (p : PlaylistRecord) =>
        { p with
          tracks := updateFirstTrack trackId
            (applyStatusUpdate status bytesDownloaded error) p.tracks
          lastUpdated := now }
      let s1 := { s with playlists := modifyPlaylist playlistName f s.playlists }
      recalculateProgress (recalculatePlaylistCounts playlistName s1)
    else s

/-- Case-insensitive membership of the basename of a file path in the
playlist directory listing (the existingFiles map of getPendingTracks). -/
def fileExistsInDir (dirFiles : List String) (filePath : String) : Bool :=
  dirFiles.any fun f => decide (lowerStr f = lowerStr (basenameStr filePath))

/-- Reconciliation step of getPendingTracks for one track: a COMPLETED track
whose file is absent goes back to PENDING with bytesDownloaded 0; a track not
COMPLETED whose file is present becomes COMPLETED with the placeholder
bytesDownloaded 1. -/
def reconcileTrack (dirFiles : List String) (t : Track) : Track :=
  let fileExists := fileExistsInDir dirFiles t.filePath
  if t.status = some TrackStatus.completed ∧ fileExists = false then
    { t with status := some TrackStatus.pending, bytesDownloaded := some 0 }
  else if t.status ≠ some TrackStatus.completed ∧ fileExists = true then
    { t with status := some TrackStatus.completed, bytesDownloaded := some 1 }
  else t

/-- Condition under which the reconciliation pass counts a track as updated. -/
def reconcileChanged (dirFiles : List String) (t : Track) : Bool :=
  decide ((t.status = some TrackStatus.completed ∧ fileExistsInDir dirFiles t.filePath = false) ∨
          (t.status ≠ some TrackStatus.completed ∧ fileExistsInDir dirFiles t.filePath = true))

/-- Filter applied by getPendingTracks after reconciliation: PENDING, or
FAILED with retry count (undefined counts as 0) strictly below the literal 5. -/
def pendingFilter (tracks : List Track) : List Track :=
  tracks.filter fun t =>
    decide (t.status = some TrackStatus.pending ∨
            (t.status = some TrackStatus.failed ∧ t.retryCount.getD 0 < 5))

/-- StateManager.getPendingTracks (part_004 lines 312-369).  dirFiles is the
readdirSync listing of the playlist's output directory (empty when the
directory is absent).  Every track is reconciled against the listing; when at
least one track was updated the cached counts and the overall progress are
recomputed (and the state persisted); the reconciled PENDING /
retryable-FAILED tracks are returned. -/
def getPendingTracks (playlistName : String) (dirFiles : List String)
    (s : DownloadState) : List Track × DownloadState :=
  match findPlaylist playlistName s.playlists with
  | none => ([], s)
  | some pl =>
    let newTracks := pl.tracks.map (reconcileTrack dirFiles)
    let updatedTracks := pl.tracks.countP (reconcileChanged dirFiles)
    let f := fun (p : PlaylistRecord) => { p with tracks := newTracks }
    let s1 := { s with playlists := modifyPlaylist playlistName f s.playlists }
    let s2 := if 0 < updatedTracks
      then recalculateProgress (recalculatePlaylistCounts playlistName s1)
      else s1
    (pendingFilter newTracks, s2)

/-- StateManager.getPlaylistStats (part_004): the cached counters, or all
zeroes for an unknown playlist. -/
def getPlaylistStats (playlistName : String) (s : DownloadState) : OverallProgress :=
  match findPlaylist playlistName s.playlists with
  | none => { total := 0, completed := 0, failed := 0, pending := 0 }
  | some pl =>
    { total := pl.totalCount
      completed := pl.completedCount
      failed := pl.failedCount
      pending := pl.pendingCount }

/-- Suffix of a regenerated track id: Math.random().toString(36).substring(2, 10),
applied to an oracle string standing for the toString(36) rendering (so at
most 8 characters survive). -/
def freshSuffix (o : String) : String :=
  String.mk ((o.data.drop 2).take 8)

/-- Malformed-id repair loop of initPlaylist (part_004 lines 127-136): every
stored track whose id is exactly name ++ "-undefined" gets a fresh random id
drawn from the oracle; the remaining oracle is returned. -/
def fixMalformedIds (name : String) : List Track → List String → List Track × List String
  | [], oracle => ([], oracle)
  | t :: ts, oracle =>
    if t.id = name ++ "-undefined" then
      let r := fixMalformedIds name ts oracle.tail
      ({ t with id := name ++ "-" ++ freshSuffix (oracle.headD "") } :: r.1, r.2)
    else
      let r := fixMalformedIds name ts oracle
      (t :: r.1, r.2)

/-- Defaults applied when a new descriptor is pushed into the store:
status || PENDING, retryCount || 0, bytesDownloaded || 0. -/
def normalizeNewTrack (t : Track) : Track :=
  { t with
    status := some (t.status.getD TrackStatus.pending)
    retryCount := some (t.retryCount.getD 0)
    bytesDownloaded := some (t.bytesDownloaded.getD 0) }

/-- Promotion branch of the initPlaylist merge: find the first stored track
with the given filePath and, when it is not yet COMPLETED, set it COMPLETED
with the placeholder bytesDownloaded 1. -/
def promoteFirst (fp : String) : List Track → List Track
  | [] => []
  | t :: ts =>
    if t.filePath = fp then
      (if t.status ≠ some TrackStatus.completed then
        { t with status := some TrackStatus.completed, bytesDownloaded := some 1 }
      else t) :: ts
    else t :: promoteFirst fp ts

/-- One step of the initPlaylist merge loop.  paths is the set of stored
filePaths computed once before the loop (so it is stale with respect to
insertions made by the loop itself, as in the source).  A descriptor whose
filePath is unknown is inserted with defaults; a known descriptor reporting
COMPLETED promotes the first stored track with that filePath. -/
def mergeOne (paths : List String) (stored : List Track) (t : Track) : List Track :=
  if t.filePath ∈ paths then
    if t.status = some TrackStatus.completed then promoteFirst t.filePath stored
    else stored
  else stored ++ [normalizeNewTrack t]

/-- Merge loop of initPlaylist over the incoming descriptor list. -/
def mergeTracks (paths : List String) (stored : List Track) (incoming : List Track) : List Track :=
  incoming.foldl (mergeOne paths) stored

/-- Fresh per-playlist record created by initPlaylist for an unknown name. -/
def emptyPlaylistRecord (now : Nat) : PlaylistRecord :=
  { tracks := []
    completed := false
    lastUpdated := now
    totalCount := 0
    completedCount := 0
    pendingCount := 0
    failedCount := 0 }

/-- StateManager.initPlaylist (part_004 lines 111-177): create the playlist
record when absent, repair malformed stored ids, merge the incoming
descriptors (dedup by filePath against the pre-merge path set), reset
totalCount to the incoming descriptor count, then recompute the cached counts
and the overall progress.  oracle supplies the Math.random draws of the id
repair; now is the Date.now reading used when the record is created. -/
def initPlaylist (name : String) (incoming : List Track) (now : Nat)
    (oracle : List String) (s : DownloadState) : DownloadState × List String :=
  let s0 := if (findPlaylist name s.playlists).isNone
    then { s with playlists := s.playlists ++ [(name, emptyPlaylistRecord now)] }
    else s
  match findPlaylist name s0.playlists with
  | none => (s0, oracle)
  | some pl =>
    let r := fixMalformedIds name pl.tracks oracle
    let paths := r.1.map Track.filePath
    let merged := mergeTracks paths r.1 incoming
    let f := fun (p : PlaylistRecord) => { p with tracks := merged, totalCount := incoming.length }
    let s1 := { s0 with playlists := modifyPlaylist name f s0.playlists }
    (recalculateProgress (recalculatePlaylistCounts name s1), r.2)

/-- Options of the DownloadManager (download.service.ts); chunkSize is
unused by the verified paths and dropped. -/
structure DownloadManagerOptions where
  maxConcurrent : Nat
  requestsPerMinute : Nat
  retryDelayMs : Nat
  maxRetries : Nat
  deriving DecidableEq

/-- Shape of the error objects inspected by the download engine's catch
block: the name and code properties, the message, and the HTTP status of the
attached response when one is present. -/
structure HttpError where
  name : Option String
  code : Option String
  message : Option String
  responseStatus : Option Nat
  deriving DecidableEq

/-- DownloadManager.shouldRetryError: connection reset, timeout and aborted
connection codes, HTTP 5xx and HTTP 429 are retryable; abort errors and
everything else are not. -/
def shouldRetryError (e : HttpError) : Bool :=
  if e.code = some "ECONNRESET" ∨ e.code = some "ETIMEDOUT" ∨ e.code = some "ECONNABORTED" then
    true
  else if (match e.responseStatus with
    | some st => decide (500 ≤ st ∧ st < 600)
    | none => false) then
    true
  else if e.responseStatus = some 429 then
    true
  else if e.name = some "AbortError" ∨ e.code = some "ERR_CANCELED" then
    false
  else
    false

/-- Guard at the top of the catch block of startDownload: an AbortError name
or an ERR_CANCELED code means the transfer was cancelled on purpose. -/
def isCancellation (e : HttpError) : Bool :=
  decide (e.name = some "AbortError" ∨ e.code = some "ERR_CANCELED")

/-- DownloadManager.calculateRetryDelay: exponential backoff
retryDelayMs * 2 ^ retryCount capped at one minute. -/
def calculateRetryDelay (opts : DownloadManagerOptions) (retryCount : Nat) : Nat :=
  min (opts.retryDelayMs * 2 ^ retryCount) 60000

/-- Events the DownloadManager emits on the paths modelled here. -/
inductive DownloadEvent where
  | fail (trackId : String) (message : String)
  | retry (trackId : String) (message : String)
  | cancelAllSignal
  deriving DecidableEq

/-- Arguments of one stateManager.updateTrackStatus call issued by the engine. -/
structure StatusUpdate where
  playlistName : String
  trackId : String
  status : TrackStatus
  bytesDownloaded : Option Nat
  error : Option String
  deriving DecidableEq

/-- Effect of the catch block of startDownload on one failed transfer: the
status update pushed to the state store (none when the block returns
silently), the backoff delay after which the track is pushed back onto the
queue (none when it is not re-enqueued), and the events emitted. -/
structure FailureOutcome where
  statusUpdate : Option StatusUpdate
  requeueDelay : Option Nat
  events : List DownloadEvent
  deriving DecidableEq

/-- JS falsy-coalescing on an optional string (x || d): an absent or empty
message falls back to the default. -/
def orDefault (s : Option String) (d : String) : String :=
  match s with
  | some m => if m = "" then d else m
  | none => d

/-- Catch block of DownloadManager.startDownload (download.service.ts lines
302-348).  A cancellation returns silently: no status update, no requeue, no
event.  Otherwise the track is marked FAILED in the state store, and it is
pushed back onto the queue after the backoff delay (with a retry event) only
when the error is retryable and the retry count is still below
options.maxRetries; otherwise a fail event is emitted. -/
def handleDownloadError (opts : DownloadManagerOptions) (track : Track)
    (e : HttpError) : FailureOutcome :=
  if isCancellation e = true then
    { statusUpdate := none, requeueDelay := none, events := [] }
  else
    let errorMessage := orDefault e.message "Unknown error"
    let shouldRetry := shouldRetryError e = true ∧ track.retryCount.getD 0 < opts.maxRetries
    let upd := some
      { playlistName := track.playlistName
        trackId := track.id
        status := TrackStatus.failed
        bytesDownloaded := track.bytesDownloaded
        error := some errorMessage }
    if shouldRetry then
      { statusUpdate := upd
        requeueDelay := some (calculateRetryDelay opts (track.retryCount.getD 0))
        events := [DownloadEvent.retry track.id errorMessage] }
    else
      { statusUpdate := upd
        requeueDelay := none
        events := [DownloadEvent.fail track.id errorMessage] }

/-- One entry of the engine's active-downloads map: the claimed track and
whether abort() has been called on its AbortController. -/
structure ActiveDownload where
  track : Track
  aborted : Bool
  deriving DecidableEq

/-- In-memory engine state touched by cancelAll: the live queue and the
active-downloads map (keyed by track id), plus the two processing flags. -/
structure EngineState where
  queue : List Track
  inProgress : List (String × ActiveDownload)
  paused : Bool
  isProcessing : Bool
  deriving DecidableEq

/-- DownloadManager.cancelAll (download.service.ts lines 433-444): abort
every active transfer, clear the active map, empty the queue, emit the
cancel-all event.  The returned string list is the ids whose
AbortController.abort() was invoked. -/
def cancelAll (s : EngineState) : EngineState × List String × List DownloadEvent :=
  ({ s with inProgress := [], queue := [] },
   s.inProgress.map Prod.fst,
   [DownloadEvent.cancelAllSignal])

/-- Options of the token-bucket rate limiter (rate-limiter.ts). -/
structure RateLimiterOptions where
  tokensPerInterval : Nat
  interval : Nat
  maxTokens : Option Nat
  deriving DecidableEq

/-- State of the token bucket: configuration plus the stored token count and
the Date.now reading of the last refill. -/
structure RateLimiter where
  tokensPerInterval : Nat
  interval : Nat
  maxTokens : Nat
  tokens : Nat
  lastRefill : Int
  deriving DecidableEq

/-- RateLimiter constructor: capacity options.maxTokens || tokensPerInterval
(0 is falsy in JS), bucket starts full. -/
def mkRateLimiter (opts : RateLimiterOptions) (now : Int) : RateLimiter :=
  let mt := match opts.maxTokens with
    | some m => if m = 0 then opts.tokensPerInterval else m
    | none => opts.tokensPerInterval
  { tokensPerInterval := opts.tokensPerInterval
    interval := opts.interval
    maxTokens := mt
    tokens := mt
    lastRefill := now }

/-- RateLimiter.refill: tokens accrue proportionally to elapsed wall-clock
time, floor(elapsed / interval * tokensPerInterval), capped at maxTokens; a
negative elapsed (clock adjustment) only resets the refill timestamp. -/
def refill (now : Int) (rl : RateLimiter) : RateLimiter :=
  let elapsed := now - rl.lastRefill
  if elapsed < 0 then { rl with lastRefill := now }
  else
    let tokensToAdd := (elapsed * (rl.tokensPerInterval : Int) / (rl.interval : Int)).toNat
    if 0 < tokensToAdd then
      { rl with tokens := min (rl.tokens + tokensToAdd) rl.maxTokens, lastRefill := now }
    else rl

/-- Outcome of one pass of RateLimiter.removeTokens at a given instant. -/
inductive RemoveTokensResult where
  | configError (rl : RateLimiter)
  | consumed (rl : RateLimiter)
  | waiting (rl : RateLimiter) (waitMs : Nat)
  deriving DecidableEq

/-- One pass of RateLimiter.removeTokens (rate-limiter.ts lines 67-103) at
wall-clock instant now: a count above the bucket capacity throws before any
mutation; otherwise the bucket is refilled and either count tokens are
consumed immediately, or the caller is told to wait
ceil(tokensNeeded * interval / tokensPerInterval) milliseconds and re-check
(the checkAndConsume loop re-runs this same pass at the later instant). -/
def removeTokensCheck (count : Nat) (now : Int) (rl : RateLimiter) : RemoveTokensResult :=
  if rl.maxTokens < count then RemoveTokensResult.configError rl
  else
    let r := refill now rl
    if count ≤ r.tokens then
      RemoveTokensResult.consumed { r with tokens := r.tokens - count }
    else
      let tokensNeeded := count - r.tokens
      let waitMs := (tokensNeeded * r.interval + r.tokensPerInterval - 1) / r.tokensPerInterval
      RemoveTokensResult.waiting r waitMs

/-- One legacy XML playlist entry (OldPlaylistTrack in track.model.ts): the
xml2js parse wraps each field in a singleton array; creator0, title0 and
location0 are the [0] elements the converter reads. -/
structure OldPlaylistTrack where
  creator0 : String
  title0 : String
  location0 : String
  deriving DecidableEq

/-- Metadata and file name derived by the legacy-entry heuristic (the local
variables fileName, title, artist, album of convertOldPlaylistTracks). -/
structure OldTrackMeta where
  fileName : String
  title : String
  artist : String
  album : String
  deriving DecidableEq

/-- Heuristic of PlaylistService.convertOldPlaylistTracks (playlist.service.ts
lines 421-456): the "Independence Day" creator is special-cased; otherwise
the string creator - title is split on the delimiter and the segment count
selects the triple.  sanitize abstracts the external sanitize-filename
package. -/
def oldTrackMeta (sanitize : String → String) (track : OldPlaylistTrack) : OldTrackMeta :=
  if track.creator0 = "Independence Day" then
    { fileName := sanitize (track.creator0 ++ " - " ++ track.title0)
      title := track.title0
      artist := ""
      album := track.creator0 }
  else
    let fullName := track.creator0 ++ " - " ++ track.title0
    let parts := splitOnStr " - " fullName
    if parts.length = 2 then
      { fileName := sanitize fullName
        title := parts.getD 1 ""
        artist := ""
        album := parts.getD 0 "" }
    else if parts.length = 3 then
      { fileName := sanitize (parts.getD 0 "" ++ " - " ++ parts.getD 2 "")
        title := parts.getD 2 ""
        artist := parts.getD 1 ""
        album := parts.getD 0 "" }
    else if 4 ≤ parts.length then
      { fileName := sanitize (parts.getD 0 "" ++ " - " ++ parts.getD 3 "")
        title := parts.getD 3 ""
        artist := parts.getD 2 ""
        album := parts.getD 1 "" }
    else
      { fileName := sanitize fullName
        title := track.title0
        artist := ""
        album := track.creator0 }

/-- Full track built by convertOldPlaylistTracks for one legacy entry:
freshId stands for the uuidv4() draw, fileExistsAt for the pre-flight
fs.existsSync check that decides the initial status. -/
def convertOldPlaylistTrack (sanitize : String → String) (fileExistsAt : String → Bool)
    (outputDir playlistName freshId : String) (track : OldPlaylistTrack) : Track :=
  let meta := oldTrackMeta sanitize track
  let filePath := outputDir ++ "/" ++ playlistName ++ "/" ++ meta.fileName ++ ".m4a"
  let st := if fileExistsAt filePath then TrackStatus.completed else TrackStatus.pending
  { id := freshId
    playlistName := playlistName
    title := meta.title
    artist := some meta.artist
    downloadUrl := track.location0
    fileName := meta.fileName ++ ".m4a"
    filePath := filePath
    fileExt := "m4a"
    metadata := { title := meta.title, artist := meta.artist, album := some meta.album, year := none }
    status := some st
    bytesDownloaded := some (if st = TrackStatus.completed then 1 else 0)
    totalBytes := none
    retryCount := some 0
    lastError := none }

/-- Modelled from the spec: the claim's reading of the getPendingTracks
filter, with the threshold taken from the configured maximum number of
retries instead of the source's literal 5 ("Returns all tracks whose status
is PENDING, or FAILED with retry count below the configured maximum"). -/
def getPendingTracksClaimFilter (maxRetries : Nat) (tracks : List Track) : List Track :=
  tracks.filter fun t =>
    decide (t.status = some TrackStatus.pending ∨
            (t.status = some TrackStatus.failed ∧ t.retryCount.getD 0 < maxRetries))

/-- Concrete track builder used by the example instances below. -/
def mkTrack (id fp : String) (status : Option TrackStatus) (retryCount : Option Nat) : Track :=
  { id := id
    playlistName := "P"
    title := "t"
    artist := none
    downloadUrl := "u"
    fileName := fp
    filePath := fp
    fileExt := "m4a"
    metadata := { title := "t", artist := "", album := none, year := none }
    status := status
    bytesDownloaded := some 0
    totalBytes := none
    retryCount := retryCount
    lastError := none }

/-- Concrete store builder: one playlist named P holding the given tracks. -/
def mkStateP (tracks : List Track) : DownloadState :=
  { playlists := [("P",
      { tracks := tracks
        completed := false
        lastUpdated := 0
        totalCount := tracks.length
        completedCount := 0
        pendingCount := 0
        failedCount := 0 })]
    currentPlaylist := "P"
    overallProgress := { total := 0, completed := 0, failed := 0, pending := 0 }
    startTime := 0 }

/-- C4: the retry delay function equals min(retryDelayMs * 2 ^ retryCount, 60000)
milliseconds; it is monotone in the retry count, and every delay is at most the
one-minute cap. -/
theorem c4_backoff_monotone (opts : DownloadManagerOptions) (r1 r2 : Nat) (h : r1 < r2) :
    (∀ r, calculateRetryDelay opts r = min (opts.retryDelayMs * 2 ^ r) 60000) ∧
    calculateRetryDelay opts r1 ≤ calculateRetryDelay opts r2 ∧
    (∀ r, calculateRetryDelay opts r ≤ 60000) := by
  refine ⟨fun r => rfl, ?_, fun r => min_le_right _ _⟩
  have hpow : 2 ^ r1 ≤ 2 ^ r2 := Nat.pow_le_pow_right (by omega) (Nat.le_of_lt h)
  exact min_le_min (Nat.mul_le_mul_left _ hpow) le_rfl

/-- Witness for C4 at retryDelayMs 1000, retry counts 1 and 2. -/
theorem c4_backoff_monotone_witness :
    1 < 2 ∧
    ((∀ r, calculateRetryDelay { maxConcurrent := 3, requestsPerMinute := 30, retryDelayMs := 1000, maxRetries := 5 } r
        = min (1000 * 2 ^ r) 60000) ∧
     calculateRetryDelay { maxConcurrent := 3, requestsPerMinute := 30, retryDelayMs := 1000, maxRetries := 5 } 1
       ≤ calculateRetryDelay { maxConcurrent := 3, requestsPerMinute := 30, retryDelayMs := 1000, maxRetries := 5 } 2 ∧
     (∀ r, calculateRetryDelay { maxConcurrent := 3, requestsPerMinute := 30, retryDelayMs := 1000, maxRetries := 5 } r ≤ 60000)) :=
  ⟨by decide, c4_backoff_monotone _ 1 2 (by decide)⟩

/-- C3: a track whose retry count has reached options.maxRetries is, on a
further retryable failure that is not a cancellation, not re-enqueued and gets
no retry event; it is marked FAILED in the state store and a fail event is
emitted. -/
theorem c3_retry_ceiling (opts : DownloadManagerOptions) (track : Track) (e : HttpError)
    (hc : isCancellation e = false) (hr : shouldRetryError e = true)
    (hmax : opts.maxRetries ≤ track.retryCount.getD 0) :
    (handleDownloadError opts track e).requeueDelay = none ∧
    (handleDownloadError opts track e).statusUpdate = some
      { playlistName := track.playlistName
        trackId := track.id
        status := TrackStatus.failed
        bytesDownloaded := track.bytesDownloaded
        error := some (orDefault e.message "Unknown error") } ∧
    (handleDownloadError opts track e).events
      = [DownloadEvent.fail track.id (orDefault e.message "Unknown error")] := by
  have hn : ¬ (shouldRetryError e = true ∧ track.retryCount.getD 0 < opts.maxRetries) := by
    intro hcontra
    exact absurd hcontra.2 (Nat.not_lt.mpr hmax)
  simp [handleDownloadError, hc, hn]

/-- Witness for C3: an ECONNRESET failure on a track with 5 of 5 retries used. -/
theorem c3_retry_ceiling_witness :
    isCancellation { name := none, code := some "ECONNRESET", message := some "boom", responseStatus := none } = false ∧
    shouldRetryError { name := none, code := some "ECONNRESET", message := some "boom", responseStatus := none } = true ∧
    (5 : Nat) ≤ ((mkTrack "a" "a.m4a" (some TrackStatus.failed) (some 5)).retryCount.getD 0) ∧
    ((handleDownloadError
        { maxConcurrent := 3, requestsPerMinute := 30, retryDelayMs := 1000, maxRetries := 5 }
        (mkTrack "a" "a.m4a" (some TrackStatus.failed) (some 5))
        { name := none, code := some "ECONNRESET", message := some "boom", responseStatus := none }).requeueDelay = none ∧
     (handleDownloadError
        { maxConcurrent := 3, requestsPerMinute := 30, retryDelayMs := 1000, maxRetries := 5 }
        (mkTrack "a" "a.m4a" (some TrackStatus.failed) (some 5))
        { name := none, code := some "ECONNRESET", message := some "boom", responseStatus := none }).statusUpdate = some
        { playlistName := (mkTrack "a" "a.m4a" (some TrackStatus.failed) (some 5)).playlistName
          trackId := (mkTrack "a" "a.m4a" (some TrackStatus.failed) (some 5)).id
          status := TrackStatus.failed
          bytesDownloaded := (mkTrack "a" "a.m4a" (some TrackStatus.failed) (some 5)).bytesDownloaded
          error := some (orDefault (some "boom") "Unknown error") } ∧
     (handleDownloadError
        { maxConcurrent := 3, requestsPerMinute := 30, retryDelayMs := 1000, maxRetries := 5 }
        (mkTrack "a" "a.m4a" (some TrackStatus.failed) (some 5))
        { name := none, code := some "ECONNRESET", message := some "boom", responseStatus := none }).events
        = [DownloadEvent.fail (mkTrack "a" "a.m4a" (some TrackStatus.failed) (some 5)).id
            (orDefault (some "boom") "Unknown error")]) :=
  ⟨by decide, by decide, by decide,
   c3_retry_ceiling _ _ _ (by decide) (by decide) (by decide)⟩

/-- C6: cancelAll leaves both the queue and the active-downloads map empty,
and the error path of a cancelled transfer returns silently: no status update
(in particular neither FAILED nor COMPLETED is recorded), no re-enqueue, no
event. -/
theorem c6_cancel_silent (s : EngineState) (opts : DownloadManagerOptions)
    (track : Track) (e : HttpError) (hc : isCancellation e = true) :
    (cancelAll s).1.queue = [] ∧
    (cancelAll s).1.inProgress = [] ∧
    handleDownloadError opts track e
      = { statusUpdate := none, requeueDelay := none, events := [] } := by
  exact ⟨rfl, rfl, by simp [handleDownloadError, hc]⟩

/-- Witness for C6: cancelling a state with two active and five queued tracks,
with an ERR_CANCELED abort error. -/
theorem c6_cancel_silent_witness :
    isCancellation { name := some "AbortError", code := some "ERR_CANCELED", message := none, responseStatus := none } = true ∧
    ((cancelAll
        { queue := [mkTrack "q1" "q1" (some TrackStatus.pending) (some 0),
                    mkTrack "q2" "q2" (some TrackStatus.pending) (some 0),
                    mkTrack "q3" "q3" (some TrackStatus.pending) (some 0),
                    mkTrack "q4" "q4" (some TrackStatus.pending) (some 0),
                    mkTrack "q5" "q5" (some TrackStatus.pending) (some 0)]
          inProgress := [("a1", { track := mkTrack "a1" "a1" (some TrackStatus.inProgress) (some 0), aborted := false }),
                         ("a2", { track := mkTrack "a2" "a2" (some TrackStatus.inProgress) (some 0), aborted := false })]
          paused := false
          isProcessing := true }).1.queue = [] ∧
     (cancelAll
        { queue := [mkTrack "q1" "q1" (some TrackStatus.pending) (some 0),
                    mkTrack "q2" "q2" (some TrackStatus.pending) (some 0),
                    mkTrack "q3" "q3" (some TrackStatus.pending) (some 0),
                    mkTrack "q4" "q4" (some TrackStatus.pending) (some 0),
                    mkTrack "q5" "q5" (some TrackStatus.pending) (some 0)]
          inProgress := [("a1", { track := mkTrack "a1" "a1" (some TrackStatus.inProgress) (some 0), aborted := false }),
                         ("a2", { track := mkTrack "a2" "a2" (some TrackStatus.inProgress) (some 0), aborted := false })]
          paused := false
          isProcessing := true }).1.inProgress = [] ∧
     handleDownloadError { maxConcurrent := 3, requestsPerMinute := 30, retryDelayMs := 1000, maxRetries := 5 }
        (mkTrack "a1" "a1" (some TrackStatus.inProgress) (some 0))
        { name := some "AbortError", code := some "ERR_CANCELED", message := none, responseStatus := none }
      = { statusUpdate := none, requeueDelay := none, events := [] }) :=
  ⟨by decide, c6_cancel_silent _ _ _ _ (by decide)⟩

/-- C9: for a legacy entry whose creator is not the special case
"Independence Day", splitting creator - title on the delimiter determines the
converted track's metadata triple and file name by segment count: 2 segments
give {title seg1, artist empty, album seg0}; exactly 3 give {title seg2,
artist seg1, album seg0} and file name seg0 - seg2; 4 or more give
{title seg3, artist seg2, album seg1} and file name seg0 - seg3 (file names
pass through sanitize and receive the .m4a extension). -/
theorem c9_legacy_heuristic (sanitize : String → String) (fileExistsAt : String → Bool)
    (outputDir playlistName freshId : String) (track : OldPlaylistTrack)
    (hnid : track.creator0 ≠ "Independence Day") :
    ((splitOnStr " - " (track.creator0 ++ " - " ++ track.title0)).length = 2 →
      (convertOldPlaylistTrack sanitize fileExistsAt outputDir playlistName freshId track).metadata
        = { title := (splitOnStr " - " (track.creator0 ++ " - " ++ track.title0)).getD 1 ""
            artist := ""
            album := some ((splitOnStr " - " (track.creator0 ++ " - " ++ track.title0)).getD 0 "")
            year := none }) ∧
    ((splitOnStr " - " (track.creator0 ++ " - " ++ track.title0)).length = 3 →
      (convertOldPlaylistTrack sanitize fileExistsAt outputDir playlistName freshId track).metadata
        = { title := (splitOnStr " - " (track.creator0 ++ " - " ++ track.title0)).getD 2 ""
            artist := (splitOnStr " - " (track.creator0 ++ " - " ++ track.title0)).getD 1 ""
            album := some ((splitOnStr " - " (track.creator0 ++ " - " ++ track.title0)).getD 0 "")
            year := none } ∧
      (convertOldPlaylistTrack sanitize fileExistsAt outputDir playlistName freshId track).fileName
        = sanitize ((splitOnStr " - " (track.creator0 ++ " - " ++ track.title0)).getD 0 "" ++ " - "
            ++ (splitOnStr " - " (track.creator0 ++ " - " ++ track.title0)).getD 2 "") ++ ".m4a") ∧
    (4 ≤ (splitOnStr " - " (track.creator0 ++ " - " ++ track.title0)).length →
      (convertOldPlaylistTrack sanitize fileExistsAt outputDir playlistName freshId track).metadata
        = { title := (splitOnStr " - " (track.creator0 ++ " - " ++ track.title0)).getD 3 ""
            artist := (splitOnStr " - " (track.creator0 ++ " - " ++ track.title0)).getD 2 ""
            album := some ((splitOnStr " - " (track.creator0 ++ " - " ++ track.title0)).getD 1 "")
            year := none } ∧
      (convertOldPlaylistTrack sanitize fileExistsAt outputDir playlistName freshId track).fileName
        = sanitize ((splitOnStr " - " (track.creator0 ++ " - " ++ track.title0)).getD 0 "" ++ " - "
            ++ (splitOnStr " - " (track.creator0 ++ " - " ++ track.title0)).getD 3 "") ++ ".m4a") := by
  refine ⟨fun hlen => ?_, fun hlen => ?_, fun hlen => ?_⟩
  · simp [convertOldPlaylistTrack, oldTrackMeta, hnid, hlen]
  · have hne2 : ¬ (splitOnStr " - " (track.creator0 ++ " - " ++ track.title0)).length = 2 := by omega
    exact ⟨by simp [convertOldPlaylistTrack, oldTrackMeta, hnid, hlen, hne2],
           by simp [convertOldPlaylistTrack, oldTrackMeta, hnid, hlen, hne2]⟩
  · have hne2 : ¬ (splitOnStr " - " (track.creator0 ++ " - " ++ track.title0)).length = 2 := by omega
    have hne3 : ¬ (splitOnStr " - " (track.creator0 ++ " - " ++ track.title0)).length = 3 := by omega
    exact ⟨by simp [convertOldPlaylistTrack, oldTrackMeta, hnid, hne2, hne3, hlen],
           by simp [convertOldPlaylistTrack, oldTrackMeta, hnid, hne2, hne3, hlen]⟩

/-- Witness for C9: the entry creator "Mega Man 10 - Capcom" and title
"Abandoned Memory" splits into 3 segments; the identity stands in for
sanitize and no file pre-exists. -/
theorem c9_legacy_heuristic_witness :
    ("Mega Man 10 - Capcom" : String) ≠ "Independence Day" ∧
    (splitOnStr " - " ("Mega Man 10 - Capcom" ++ " - " ++ "Abandoned Memory")).length = 3 ∧
    ((convertOldPlaylistTrack (fun x => x) (fun _ => false) "out" "WAP" "id1"
        { creator0 := "Mega Man 10 - Capcom", title0 := "Abandoned Memory", location0 := "loc" }).metadata
      = { title := "Abandoned Memory", artist := "Capcom", album := some "Mega Man 10", year := none } ∧
     (convertOldPlaylistTrack (fun x => x) (fun _ => false) "out" "WAP" "id1"
        { creator0 := "Mega Man 10 - Capcom", title0 := "Abandoned Memory", location0 := "loc" }).fileName
      = "Mega Man 10 - Abandoned Memory.m4a") := by
  refine ⟨by decide, by decide, ?_⟩
  have h := (c9_legacy_heuristic (fun x => x) (fun _ => false) "out" "WAP" "id1"
    { creator0 := "Mega Man 10 - Capcom", title0 := "Abandoned Memory", location0 := "loc" }
    (by decide)).2.1 (by decide)
  refine ⟨?_, ?_⟩
  · rw [h.1]
    decide
  · rw [h.2]
    decide

/-- Refill never changes the bucket capacity. -/
theorem refill_maxTokens (now : Int) (rl : RateLimiter) :
    (refill now rl).maxTokens = rl.maxTokens := by
  by_cases h1 : now - rl.lastRefill < 0
  · simp [refill, h1]
  · by_cases h2 : 0 < ((now - rl.lastRefill) * (rl.tokensPerInterval : Int) / (rl.interval : Int)).toNat
    · simp [refill, h1, h2]
    · simp [refill, h1, h2]

/-- Refill keeps the stored token count within the capacity. -/
theorem refill_tokens_le (now : Int) (rl : RateLimiter) (h : rl.tokens ≤ rl.maxTokens) :
    (refill now rl).tokens ≤ rl.maxTokens := by
  by_cases h1 : now - rl.lastRefill < 0
  · simpa [refill, h1] using h
  · by_cases h2 : 0 < ((now - rl.lastRefill) * (rl.tokensPerInterval : Int) / (rl.interval : Int)).toNat
    · simp [refill, h1, h2]
    · simpa [refill, h1, h2] using h

/-- At an instant a full capacity-worth of interval time after the last
refill, the bucket holds at least count tokens for any count within capacity. -/
theorem refill_full_ge (rl : RateLimiter) (count : Nat)
    (htpi : 1 ≤ rl.tokensPerInterval) (hint : 1 ≤ rl.interval)
    (hcount : count ≤ rl.maxTokens) :
    count ≤ (refill (rl.lastRefill + (rl.interval : Int) * rl.maxTokens) rl).tokens := by
  by_cases hmt : rl.maxTokens = 0
  · have hc0 : count = 0 := by omega
    simp [hc0]
  · have helapsed : rl.lastRefill + (rl.interval : Int) * rl.maxTokens - rl.lastRefill
        = (rl.interval : Int) * rl.maxTokens := by ring
    have h0 : (0 : Int) ≤ (rl.interval : Int) * rl.maxTokens :=
      mul_nonneg (Int.natCast_nonneg _) (Int.natCast_nonneg _)
    have h1 : ¬ ((rl.interval : Int) * rl.maxTokens < 0) := by omega
    have hne : (rl.interval : Int) ≠ 0 := by
      have hp : (0 : Int) < rl.interval := by exact_mod_cast hint
      omega
    have hdiv : ((rl.interval : Int) * rl.maxTokens
        * (rl.tokensPerInterval : Int) / (rl.interval : Int)).toNat
        = rl.maxTokens * rl.tokensPerInterval := by
      rw [mul_assoc, Int.mul_ediv_cancel_left _ hne, ← Nat.cast_mul]
      omega
    have hpos : 0 < rl.maxTokens * rl.tokensPerInterval :=
      Nat.mul_pos (Nat.pos_of_ne_zero hmt) htpi
    have hge : rl.maxTokens ≤ rl.tokens + rl.maxTokens * rl.tokensPerInterval := by
      have h2 : rl.maxTokens ≤ rl.maxTokens * rl.tokensPerInterval :=
        Nat.le_mul_of_pos_right _ htpi
      omega
    simp [refill, helapsed, h1, hdiv, hpos]
    exact ⟨le_trans hcount hge, hcount⟩

/-- C8: removeTokens throws exactly when the requested count exceeds the
bucket capacity, and then the bucket is untouched; a count within capacity is
eventually served (at the latest one full capacity-worth of interval time
after the last refill) by consuming exactly count tokens from the refilled
bucket; and on every outcome the stored token count stays within capacity. -/
theorem c8_remove_tokens (rl : RateLimiter) (count : Nat)
    (htpi : 1 ≤ rl.tokensPerInterval) (hint : 1 ≤ rl.interval)
    (hinv : rl.tokens ≤ rl.maxTokens) :
    (∀ now, rl.maxTokens < count →
        removeTokensCheck count now rl = RemoveTokensResult.configError rl) ∧
    (∀ now r, removeTokensCheck count now rl = RemoveTokensResult.configError r →
        r = rl ∧ rl.maxTokens < count) ∧
    (count ≤ rl.maxTokens →
        ∃ r, removeTokensCheck count (rl.lastRefill + (rl.interval : Int) * rl.maxTokens) rl
            = RemoveTokensResult.consumed r ∧
          r.tokens = (refill (rl.lastRefill + (rl.interval : Int) * rl.maxTokens) rl).tokens - count) ∧
    (∀ now r, removeTokensCheck count now rl = RemoveTokensResult.consumed r →
        r.tokens ≤ r.maxTokens) ∧
    (∀ now r w, removeTokensCheck count now rl = RemoveTokensResult.waiting r w →
        r.tokens ≤ r.maxTokens) := by
  refine ⟨?_, ?_, ?_, ?_, ?_⟩
  · intro now hlt
    simp [removeTokensCheck, hlt]
  · intro now r h
    by_cases hcase : rl.maxTokens < count
    · simp [removeTokensCheck, hcase] at h
      exact ⟨h.symm, hcase⟩
    · by_cases hc2 : count ≤ (refill now rl).tokens <;>
        simp [removeTokensCheck, hcase, hc2] at h
  · intro hcount
    have hnot : ¬ (rl.maxTokens < count) := Nat.not_lt.mpr hcount
    have hge := refill_full_ge rl count htpi hint hcount
    refine ⟨{ refill (rl.lastRefill + (rl.interval : Int) * rl.maxTokens) rl with
      tokens := (refill (rl.lastRefill + (rl.interval : Int) * rl.maxTokens) rl).tokens - count }, ?_, rfl⟩
    simp [removeTokensCheck, hnot, hge]
  · intro now r h
    by_cases hcase : rl.maxTokens < count
    · simp [removeTokensCheck, hcase] at h
    · by_cases hc2 : count ≤ (refill now rl).tokens
      · simp [removeTokensCheck, hcase, hc2] at h
        rw [← h]
        have ht := refill_tokens_le now rl hinv
        have hm := refill_maxTokens now rl
        show (refill now rl).tokens - count ≤ (refill now rl).maxTokens
        omega
      · simp [removeTokensCheck, hcase, hc2] at h
  · intro now r w h
    by_cases hcase : rl.maxTokens < count
    · simp [removeTokensCheck, hcase] at h
    · by_cases hc2 : count ≤ (refill now rl).tokens
      · simp [removeTokensCheck, hcase, hc2] at h
      · simp [removeTokensCheck, hcase, hc2] at h
        rw [← h.1, refill_maxTokens]
        exact refill_tokens_le now rl hinv

/-- Witness for C8 on the bucket built from the source defaults (30 requests
per minute), with a request for 5 tokens. -/
theorem c8_remove_tokens_witness :
    1 ≤ (mkRateLimiter { tokensPerInterval := 30, interval := 60000, maxTokens := none } 0).tokensPerInterval ∧
    1 ≤ (mkRateLimiter { tokensPerInterval := 30, interval := 60000, maxTokens := none } 0).interval ∧
    (mkRateLimiter { tokensPerInterval := 30, interval := 60000, maxTokens := none } 0).tokens
      ≤ (mkRateLimiter { tokensPerInterval := 30, interval := 60000, maxTokens := none } 0).maxTokens ∧
    ((∀ now, (mkRateLimiter { tokensPerInterval := 30, interval := 60000, maxTokens := none } 0).maxTokens < 5 →
        removeTokensCheck 5 now (mkRateLimiter { tokensPerInterval := 30, interval := 60000, maxTokens := none } 0)
          = RemoveTokensResult.configError (mkRateLimiter { tokensPerInterval := 30, interval := 60000, maxTokens := none } 0)) ∧
     (∀ now r, removeTokensCheck 5 now (mkRateLimiter { tokensPerInterval := 30, interval := 60000, maxTokens := none } 0)
          = RemoveTokensResult.configError r →
        r = mkRateLimiter { tokensPerInterval := 30, interval := 60000, maxTokens := none } 0 ∧
        (mkRateLimiter { tokensPerInterval := 30, interval := 60000, maxTokens := none } 0).maxTokens < 5) ∧
     (5 ≤ (mkRateLimiter { tokensPerInterval := 30, interval := 60000, maxTokens := none } 0).maxTokens →
        ∃ r, removeTokensCheck 5
            ((mkRateLimiter { tokensPerInterval := 30, interval := 60000, maxTokens := none } 0).lastRefill
              + ((mkRateLimiter { tokensPerInterval := 30, interval := 60000, maxTokens := none } 0).interval : Int)
                * (mkRateLimiter { tokensPerInterval := 30, interval := 60000, maxTokens := none } 0).maxTokens)
            (mkRateLimiter { tokensPerInterval := 30, interval := 60000, maxTokens := none } 0)
            = RemoveTokensResult.consumed r ∧
          r.tokens = (refill
            ((mkRateLimiter { tokensPerInterval := 30, interval := 60000, maxTokens := none } 0).lastRefill
              + ((mkRateLimiter { tokensPerInterval := 30, interval := 60000, maxTokens := none } 0).interval : Int)
                * (mkRateLimiter { tokensPerInterval := 30, interval := 60000, maxTokens := none } 0).maxTokens)
            (mkRateLimiter { tokensPerInterval := 30, interval := 60000, maxTokens := none } 0)).tokens - 5) ∧
     (∀ now r, removeTokensCheck 5 now (mkRateLimiter { tokensPerInterval := 30, interval := 60000, maxTokens := none } 0)
          = RemoveTokensResult.consumed r → r.tokens ≤ r.maxTokens) ∧
     (∀ now r w, removeTokensCheck 5 now (mkRateLimiter { tokensPerInterval := 30, interval := 60000, maxTokens := none } 0)
          = RemoveTokensResult.waiting r w → r.tokens ≤ r.maxTokens)) :=
  ⟨by decide, by decide, by decide,
   c8_remove_tokens (mkRateLimiter { tokensPerInterval := 30, interval := 60000, maxTokens := none } 0) 5
     (by decide) (by decide) (by decide)⟩

/-- C10: every state-store operation is total on unknown targets and mutates
nothing there: on an absent playlist, updateTrackStatus is the identity,
getPendingTracks returns the empty list with the store unchanged, and
getPlaylistStats returns all-zero counts; and updateTrackStatus with a track
id unknown in an existing playlist is also the identity. -/
theorem c10_unknown_targets (name trackId : String) (status : TrackStatus)
    (bytes : Option Nat) (err : Option String) (now : Nat) (dirFiles : List String)
    (s : DownloadState) (habs : findPlaylist name s.playlists = none) :
    updateTrackStatus name trackId status bytes err now s = s ∧
    getPendingTracks name dirFiles s = ([], s) ∧
    getPlaylistStats name s = { total := 0, completed := 0, failed := 0, pending := 0 } ∧
    (∀ name2 pl, findPlaylist name2 s.playlists = some pl →
      firstWithId trackId pl.tracks = none →
      updateTrackStatus name2 trackId status bytes err now s = s) := by
  refine ⟨?_, ?_, ?_, ?_⟩
  · simp [updateTrackStatus, habs]
  · simp [getPendingTracks, habs]
  · simp [getPlaylistStats, habs]
  · intro name2 pl h2 h3
    simp [updateTrackStatus, h2, h3]

/-- Witness for C10: a store holding only playlist P, queried for the absent
playlist Q and, for the unknown-track part, for an id missing from P. -/
theorem c10_unknown_targets_witness :
    findPlaylist "Q" (mkStateP [mkTrack "a" "a.m4a" (some TrackStatus.pending) (some 0)]).playlists = none ∧
    (updateTrackStatus "Q" "zz" TrackStatus.completed none none 7
        (mkStateP [mkTrack "a" "a.m4a" (some TrackStatus.pending) (some 0)])
      = mkStateP [mkTrack "a" "a.m4a" (some TrackStatus.pending) (some 0)] ∧
     getPendingTracks "Q" [] (mkStateP [mkTrack "a" "a.m4a" (some TrackStatus.pending) (some 0)])
      = ([], mkStateP [mkTrack "a" "a.m4a" (some TrackStatus.pending) (some 0)]) ∧
     getPlaylistStats "Q" (mkStateP [mkTrack "a" "a.m4a" (some TrackStatus.pending) (some 0)])
      = { total := 0, completed := 0, failed := 0, pending := 0 } ∧
     (∀ name2 pl, findPlaylist name2 (mkStateP [mkTrack "a" "a.m4a" (some TrackStatus.pending) (some 0)]).playlists = some pl →
        firstWithId "zz" pl.tracks = none →
        updateTrackStatus name2 "zz" TrackStatus.completed none none 7
          (mkStateP [mkTrack "a" "a.m4a" (some TrackStatus.pending) (some 0)])
          = mkStateP [mkTrack "a" "a.m4a" (some TrackStatus.pending) (some 0)])) :=
  ⟨by decide,
   c10_unknown_targets "Q" "zz" TrackStatus.completed none none 7 []
     (mkStateP [mkTrack "a" "a.m4a" (some TrackStatus.pending) (some 0)]) (by decide)⟩

/-- C5 (amended): getPendingTracks returns exactly the tracks of the playlist
(after its reconciliation pass) whose status is PENDING, plus those FAILED
with retry count strictly below the literal 5 hard-coded in the source (the
default maxRetries), not below the configured maximum. -/
theorem c5_pending_selection (name : String) (dirFiles : List String)
    (s : DownloadState) (pl : PlaylistRecord)
    (h : findPlaylist name s.playlists = some pl) :
    (getPendingTracks name dirFiles s).1
      = getPendingTracksClaimFilter 5 (pl.tracks.map (reconcileTrack dirFiles)) := by
  simp [getPendingTracks, h, pendingFilter, getPendingTracksClaimFilter]

/-- Counterexample for C5 as stated: with the configured maximum number of
retries set to 3, the store returns a FAILED track with retry count 4 (because
the source compares against the literal 5), while the claim's filter excludes
it. -/
theorem c5_pending_counterexample :
    (getPendingTracks "P" [] (mkStateP [mkTrack "a" "a.m4a" (some TrackStatus.failed) (some 4)])).1
      ≠ getPendingTracksClaimFilter 3
          ([mkTrack "a" "a.m4a" (some TrackStatus.failed) (some 4)].map (reconcileTrack [])) := by
  decide

/-- Witness for the amended C5 on a two-track playlist. -/
theorem c5_pending_selection_witness :
    findPlaylist "P" (mkStateP [mkTrack "a" "a.m4a" (some TrackStatus.failed) (some 4),
        mkTrack "b" "b.m4a" (some TrackStatus.completed) (some 0)]).playlists
      = some { tracks := [mkTrack "a" "a.m4a" (some TrackStatus.failed) (some 4),
                          mkTrack "b" "b.m4a" (some TrackStatus.completed) (some 0)]
               completed := false
               lastUpdated := 0
               totalCount := 2
               completedCount := 0
               pendingCount := 0
               failedCount := 0 } ∧
    (getPendingTracks "P" [] (mkStateP [mkTrack "a" "a.m4a" (some TrackStatus.failed) (some 4),
        mkTrack "b" "b.m4a" (some TrackStatus.completed) (some 0)])).1
      = getPendingTracksClaimFilter 5
          ([mkTrack "a" "a.m4a" (some TrackStatus.failed) (some 4),
            mkTrack "b" "b.m4a" (some TrackStatus.completed) (some 0)].map (reconcileTrack [])) :=
  ⟨by decide,
   c5_pending_selection "P" []
     (mkStateP [mkTrack "a" "a.m4a" (some TrackStatus.failed) (some 4),
                mkTrack "b" "b.m4a" (some TrackStatus.completed) (some 0)])
     { tracks := [mkTrack "a" "a.m4a" (some TrackStatus.failed) (some 4),
                  mkTrack "b" "b.m4a" (some TrackStatus.completed) (some 0)]
       completed := false
       lastUpdated := 0
       totalCount := 2
       completedCount := 0
       pendingCount := 0
       failedCount := 0 } (by decide)⟩

/-- Looking a playlist up after an in-place modification of the same name. -/
theorem findPlaylist_modify (name : String) (f : PlaylistRecord → PlaylistRecord)
    (l : List (String × PlaylistRecord)) :
    findPlaylist name (modifyPlaylist name f l) = (findPlaylist name l).map f := by
  induction l with
  | nil => rfl
  | cons p ps ih =>
    by_cases hp : p.1 = name
    · simp [findPlaylist, modifyPlaylist, hp]
    · simp [findPlaylist, modifyPlaylist, hp, ih]

/-- Recalculating the cached counts leaves every track list unchanged. -/
theorem recalcCountsFn_tracks (pl : PlaylistRecord) : (recalcCountsFn pl).tracks = pl.tracks := rfl

/-- Recalculating the overall progress leaves every track list unchanged. -/
theorem tracksOf_recalcProgress (name : String) (s : DownloadState) :
    tracksOf name (recalculateProgress s) = tracksOf name s := rfl

/-- Recalculating a playlist's counts leaves its track list unchanged. -/
theorem tracksOf_recalcCounts (name : String) (s : DownloadState) :
    tracksOf name (recalculatePlaylistCounts name s) = tracksOf name s := by
  unfold tracksOf recalculatePlaylistCounts
  simp only [findPlaylist_modify]
  cases hf : findPlaylist name s.playlists <;> simp [recalcCountsFn_tracks]

/-- Tracks seen through a same-name in-place modification. -/
theorem tracksOf_playlists_modify (name : String) (f : PlaylistRecord → PlaylistRecord)
    (s : DownloadState) (pl : PlaylistRecord) (h : findPlaylist name s.playlists = some pl) :
    tracksOf name { s with playlists := modifyPlaylist name f s.playlists } = (f pl).tracks := by
  unfold tracksOf
  simp [findPlaylist_modify, h]

/-- Reconciliation never changes a track's file path. -/
theorem reconcileTrack_filePath (dirFiles : List String) (t : Track) :
    (reconcileTrack dirFiles t).filePath = t.filePath := by
  by_cases h1 : t.status = some TrackStatus.completed <;>
    by_cases h2 : fileExistsInDir dirFiles t.filePath = true <;>
      simp [reconcileTrack, h1, h2]

/-- After reconciliation a track is COMPLETED exactly when its file is in the
directory listing. -/
theorem reconcileTrack_status_iff (dirFiles : List String) (t : Track) :
    ((reconcileTrack dirFiles t).status = some TrackStatus.completed)
      ↔ fileExistsInDir dirFiles t.filePath = true := by
  by_cases h1 : t.status = some TrackStatus.completed <;>
    by_cases h2 : fileExistsInDir dirFiles t.filePath = true <;>
      simp [reconcileTrack, h1, h2]

/-- C1: after getPendingTracks returns, the stored tracks of the queried
playlist are exactly its previous tracks with the reconciliation step applied,
every stored track is COMPLETED iff a file with its basename (compared
case-insensitively) is in the playlist directory listing, a previously
COMPLETED track whose file is absent has been demoted to PENDING with
bytesDownloaded 0, and a previously non-COMPLETED track whose file is present
has been promoted to COMPLETED. -/
theorem c1_reconciliation_invariant (name : String) (dirFiles : List String)
    (s : DownloadState) (pl : PlaylistRecord)
    (h : findPlaylist name s.playlists = some pl) :
    tracksOf name (getPendingTracks name dirFiles s).2 = pl.tracks.map (reconcileTrack dirFiles) ∧
    (∀ t ∈ tracksOf name (getPendingTracks name dirFiles s).2,
        (t.status = some TrackStatus.completed ↔ fileExistsInDir dirFiles t.filePath = true)) ∧
    (∀ t ∈ pl.tracks, t.status = some TrackStatus.completed →
        fileExistsInDir dirFiles t.filePath = false →
        (reconcileTrack dirFiles t).status = some TrackStatus.pending ∧
        (reconcileTrack dirFiles t).bytesDownloaded = some 0) ∧
    (∀ t ∈ pl.tracks, t.status ≠ some TrackStatus.completed →
        fileExistsInDir dirFiles t.filePath = true →
        (reconcileTrack dirFiles t).status = some TrackStatus.completed) := by
  have htracks : tracksOf name (getPendingTracks name dirFiles s).2
      = pl.tracks.map (reconcileTrack dirFiles) := by
    simp only [getPendingTracks, h]
    by_cases hc : 0 < pl.tracks.countP (reconcileChanged dirFiles)
    · simp only [hc, if_true, tracksOf_recalcProgress, tracksOf_recalcCounts]
      exact tracksOf_playlists_modify name _ s pl h
    · simp only [hc, if_false]
      exact tracksOf_playlists_modify name _ s pl h
  refine ⟨htracks, ?_, ?_, ?_⟩
  · intro t ht
    rw [htracks] at ht
    rcases List.mem_map.mp ht with ⟨u, _, hu⟩
    subst hu
    rw [reconcileTrack_filePath]
    exact reconcileTrack_status_iff dirFiles u
  · intro t _ h1 h2
    constructor <;> simp [reconcileTrack, h1, h2]
  · intro t _ h1 h2
    simp [reconcileTrack, h1, h2]

/-- Witness for C1: a playlist whose COMPLETED track a.m4a has no file on
disk while the PENDING track b.m4a does (listed as B.M4A, matching
case-insensitively). -/
theorem c1_reconciliation_invariant_witness :
    findPlaylist "P" (mkStateP [mkTrack "a" "a.m4a" (some TrackStatus.completed) (some 0),
        mkTrack "b" "b.m4a" (some TrackStatus.pending) (some 0)]).playlists
      = some { tracks := [mkTrack "a" "a.m4a" (some TrackStatus.completed) (some 0),
                          mkTrack "b" "b.m4a" (some TrackStatus.pending) (some 0)]
               completed := false
               lastUpdated := 0
               totalCount := 2
               completedCount := 0
               pendingCount := 0
               failedCount := 0 } ∧
    tracksOf "P" (getPendingTracks "P" ["B.M4A"]
        (mkStateP [mkTrack "a" "a.m4a" (some TrackStatus.completed) (some 0),
                   mkTrack "b" "b.m4a" (some TrackStatus.pending) (some 0)])).2
      = [mkTrack "a" "a.m4a" (some TrackStatus.completed) (some 0),
         mkTrack "b" "b.m4a" (some TrackStatus.pending) (some 0)].map (reconcileTrack ["B.M4A"]) ∧
    (∀ t ∈ tracksOf "P" (getPendingTracks "P" ["B.M4A"]
        (mkStateP [mkTrack "a" "a.m4a" (some TrackStatus.completed) (some 0),
                   mkTrack "b" "b.m4a" (some TrackStatus.pending) (some 0)])).2,
      (t.status = some TrackStatus.completed ↔ fileExistsInDir ["B.M4A"] t.filePath = true)) :=
  ⟨by decide,
   (c1_reconciliation_invariant "P" ["B.M4A"]
     (mkStateP [mkTrack "a" "a.m4a" (some TrackStatus.completed) (some 0),
                mkTrack "b" "b.m4a" (some TrackStatus.pending) (some 0)])
     { tracks := [mkTrack "a" "a.m4a" (some TrackStatus.completed) (some 0),
                  mkTrack "b" "b.m4a" (some TrackStatus.pending) (some 0)]
       completed := false
       lastUpdated := 0
       totalCount := 2
       completedCount := 0
       pendingCount := 0
       failedCount := 0 } (by decide)).1,
   (c1_reconciliation_invariant "P" ["B.M4A"]
     (mkStateP [mkTrack "a" "a.m4a" (some TrackStatus.completed) (some 0),
                mkTrack "b" "b.m4a" (some TrackStatus.pending) (some 0)])
     { tracks := [mkTrack "a" "a.m4a" (some TrackStatus.completed) (some 0),
                  mkTrack "b" "b.m4a" (some TrackStatus.pending) (some 0)]
       completed := false
       lastUpdated := 0
       totalCount := 2
       completedCount := 0
       pendingCount := 0
       failedCount := 0 } (by decide)).2.1⟩

/-- Playlist map entry with its last-updated timestamp erased; used to state
properties that hold up to timestamps. -/
def stripEntry (p : String × PlaylistRecord) : String × PlaylistRecord :=
  (p.1, { p.2 with lastUpdated := 0 })

/-- Store with every last-updated timestamp erased: the observable part of
the store named by the claims (track lists with statuses, retry counts and
last errors, cached counts, completed flags, overall progress). -/
def stripTimes (s : DownloadState) : DownloadState :=
  { s with playlists := s.playlists.map stripEntry }

/-- Status updates keep the track id. -/
theorem applyStatusUpdate_id (status : TrackStatus) (bytes : Option Nat)
    (err : Option String) (t : Track) :
    (applyStatusUpdate status bytes err t).id = t.id := by
  by_cases hf : status = TrackStatus.failed <;> cases bytes <;>
    simp [applyStatusUpdate, hf]

/-- A non-FAILED status update is idempotent on a track. -/
theorem applyStatusUpdate_idem (status : TrackStatus) (bytes : Option Nat)
    (err : Option String) (t : Track) (hs : status ≠ TrackStatus.failed) :
    applyStatusUpdate status bytes err (applyStatusUpdate status bytes err t)
      = applyStatusUpdate status bytes err t := by
  cases bytes <;> simp [applyStatusUpdate, hs]

/-- Updating the first matching track twice with an idempotent, id-preserving
mutation equals updating it once. -/
theorem updateFirstTrack_idem (tid : String) (f : Track → Track) (ts : List Track)
    (hf : ∀ t, f (f t) = f t) (hid : ∀ t, (f t).id = t.id) :
    updateFirstTrack tid f (updateFirstTrack tid f ts) = updateFirstTrack tid f ts := by
  induction ts with
  | nil => rfl
  | cons t ts ih =>
    by_cases ht : t.id = tid
    · simp [updateFirstTrack, ht, hid, hf]
    · simp [updateFirstTrack, ht, ih]

/-- Updating the first matching track with an id-preserving mutation keeps
the id lookup's success. -/
theorem firstWithId_update_isSome (tid : String) (f : Track → Track) (ts : List Track)
    (hid : ∀ t, (f t).id = t.id) :
    (firstWithId tid (updateFirstTrack tid f ts)).isSome = (firstWithId tid ts).isSome := by
  induction ts with
  | nil => rfl
  | cons t ts ih =>
    by_cases ht : t.id = tid
    · simp [updateFirstTrack, firstWithId, ht, hid]
    · simp [updateFirstTrack, firstWithId, ht, ih]

/-- Two in-place modifications of the same playlist compose. -/
theorem modifyPlaylist_modify (name : String) (f g : PlaylistRecord → PlaylistRecord)
    (l : List (String × PlaylistRecord)) :
    modifyPlaylist name f (modifyPlaylist name g l)
      = modifyPlaylist name (fun p => f (g p)) l := by
  induction l with
  | nil => rfl
  | cons p ps ih =>
    by_cases hp : p.1 = name
    · simp [modifyPlaylist, hp]
    · simp [modifyPlaylist, hp, ih]

/-- Count recalculation ignores the last-updated timestamp. -/
theorem recalcCountsFn_lastUpdated (pl : PlaylistRecord) (x : Nat) :
    recalcCountsFn { pl with lastUpdated := x } = { recalcCountsFn pl with lastUpdated := x } := rfl

/-- Count recalculation is idempotent. -/
theorem recalcCountsFn_idem (pl : PlaylistRecord) :
    recalcCountsFn (recalcCountsFn pl) = recalcCountsFn pl := rfl

/-- Per-playlist mutation applied by updateTrackStatus on its main path. -/
def statusUpdateFn (trackId : String) (status : TrackStatus) (bytes : Option Nat)
    (err : Option String) (now : Nat) : PlaylistRecord → PlaylistRecord :=
  fun p => recalcCountsFn
    { p with
      tracks := updateFirstTrack trackId (applyStatusUpdate status bytes err) p.tracks
      lastUpdated := now }

/-- Shape of updateTrackStatus on its main path: one composed in-place
playlist modification followed by the overall-progress recomputation. -/
theorem updateTrackStatus_shape (name trackId : String) (status : TrackStatus)
    (bytes : Option Nat) (err : Option String) (now : Nat) (s : DownloadState)
    (pl : PlaylistRecord) (h : findPlaylist name s.playlists = some pl)
    (h2 : (firstWithId trackId pl.tracks).isSome = true) :
    updateTrackStatus name trackId status bytes err now s
      = { s with
          playlists := modifyPlaylist name (statusUpdateFn trackId status bytes err now) s.playlists
          overallProgress := progressOf
            (modifyPlaylist name (statusUpdateFn trackId status bytes err now) s.playlists) } := by
  simp only [updateTrackStatus, h, h2, if_true, recalculateProgress, recalculatePlaylistCounts,
    modifyPlaylist_modify]
  rfl

/-- Sums of a per-playlist numeric field are unchanged by an in-place
modification that preserves that field. -/
theorem sum_map_modify (name : String) (h : PlaylistRecord → PlaylistRecord)
    (l : List (String × PlaylistRecord)) (q : PlaylistRecord)
    (hq : findPlaylist name l = some q) (g : PlaylistRecord → Nat) (hg : g (h q) = g q) :
    ((modifyPlaylist name h l).map (fun p => g p.2)).sum = (l.map (fun p => g p.2)).sum := by
  induction l with
  | nil => simp [findPlaylist] at hq
  | cons p ps ih =>
    by_cases hp : p.1 = name
    · simp only [findPlaylist, hp, if_true] at hq
      cases hq
      simp [modifyPlaylist, hp, hg]
    · simp only [findPlaylist, hp, if_false] at hq
      simp [modifyPlaylist, hp, ih hq]

/-- Overall progress is unchanged by an in-place modification that preserves
the four cached counters. -/
theorem progressOf_modify (name : String) (h : PlaylistRecord → PlaylistRecord)
    (l : List (String × PlaylistRecord)) (q : PlaylistRecord)
    (hq : findPlaylist name l = some q)
    (hc1 : (h q).totalCount = q.totalCount) (hc2 : (h q).completedCount = q.completedCount)
    (hc3 : (h q).failedCount = q.failedCount) (hc4 : (h q).pendingCount = q.pendingCount) :
    progressOf (modifyPlaylist name h l) = progressOf l := by
  unfold progressOf
  rw [sum_map_modify name h l q hq _ hc1, sum_map_modify name h l q hq _ hc2,
      sum_map_modify name h l q hq _ hc3, sum_map_modify name h l q hq _ hc4]

/-- Stripped playlist maps are unchanged by an in-place modification that is
the identity up to the timestamp. -/
theorem map_strip_modify (name : String) (h : PlaylistRecord → PlaylistRecord)
    (l : List (String × PlaylistRecord)) (q : PlaylistRecord)
    (hq : findPlaylist name l = some q)
    (hst : { h q with lastUpdated := 0 } = { q with lastUpdated := 0 }) :
    (modifyPlaylist name h l).map stripEntry = l.map stripEntry := by
  induction l with
  | nil => simp [findPlaylist] at hq
  | cons p ps ih =>
    by_cases hp : p.1 = name
    · simp only [findPlaylist, hp, if_true] at hq
      cases hq
      simp [modifyPlaylist, hp, stripEntry, hst]
    · simp only [findPlaylist, hp, if_false] at hq
      simp [modifyPlaylist, hp, stripEntry, ih hq]

/-- Applying the per-playlist mutation of a non-FAILED updateTrackStatus
twice only re-stamps the timestamp. -/
theorem statusUpdateFn_twice (trackId : String) (status : TrackStatus)
    (bytes : Option Nat) (err : Option String) (n1 n2 : Nat) (pl : PlaylistRecord)
    (hs : status ≠ TrackStatus.failed) :
    statusUpdateFn trackId status bytes err n2 (statusUpdateFn trackId status bytes err n1 pl)
      = { statusUpdateFn trackId status bytes err n1 pl with lastUpdated := n2 } := by
  have hid := applyStatusUpdate_id status bytes err
  have hidem : ∀ t, applyStatusUpdate status bytes err (applyStatusUpdate status bytes err t)
      = applyStatusUpdate status bytes err t :=
    fun t => applyStatusUpdate_idem status bytes err t hs
  show recalcCountsFn { statusUpdateFn trackId status bytes err n1 pl with
      tracks := updateFirstTrack trackId (applyStatusUpdate status bytes err)
        (statusUpdateFn trackId status bytes err n1 pl).tracks
      lastUpdated := n2 } = _
  have htr : (statusUpdateFn trackId status bytes err n1 pl).tracks
      = updateFirstTrack trackId (applyStatusUpdate status bytes err) pl.tracks := rfl
  rw [htr, updateFirstTrack_idem _ _ _ hidem hid]
  have hrec : ({ statusUpdateFn trackId status bytes err n1 pl with
      tracks := updateFirstTrack trackId (applyStatusUpdate status bytes err) pl.tracks
      lastUpdated := n2 } : PlaylistRecord)
      = { statusUpdateFn trackId status bytes err n1 pl with lastUpdated := n2 } := rfl
  rw [hrec, recalcCountsFn_lastUpdated]
  have hidm : recalcCountsFn (statusUpdateFn trackId status bytes err n1 pl)
      = statusUpdateFn trackId status bytes err n1 pl :=
    recalcCountsFn_idem { pl with
      tracks := updateFirstTrack trackId (applyStatusUpdate status bytes err) pl.tracks
      lastUpdated := n1 }
  rw [hidm]

/-- C7 (amended): for every status other than FAILED, applying
updateTrackStatus twice with the same arguments leaves the observable store
(track statuses, retry counts, last-error fields, cached counts and overall
progress - everything but the last-updated timestamps) as after one
application.  A FAILED transition is excluded: each application increments the
retry count. -/
theorem c7_idempotent_update (name trackId : String) (status : TrackStatus)
    (bytes : Option Nat) (err : Option String) (n1 n2 : Nat) (s : DownloadState)
    (hs : status ≠ TrackStatus.failed) :
    stripTimes (updateTrackStatus name trackId status bytes err n2
        (updateTrackStatus name trackId status bytes err n1 s))
      = stripTimes (updateTrackStatus name trackId status bytes err n1 s) := by
  cases hfp : findPlaylist name s.playlists with
  | none =>
    have e1 : updateTrackStatus name trackId status bytes err n1 s = s := by
      simp [updateTrackStatus, hfp]
    have e2 : updateTrackStatus name trackId status bytes err n2 s = s := by
      simp [updateTrackStatus, hfp]
    rw [e1, e2]
  | some pl =>
    by_cases h2 : (firstWithId trackId pl.tracks).isSome = true
    · have hid := applyStatusUpdate_id status bytes err
      have e1 := updateTrackStatus_shape name trackId status bytes err n1 s pl hfp h2
      have hq1 : findPlaylist name
          (modifyPlaylist name (statusUpdateFn trackId status bytes err n1) s.playlists)
          = some (statusUpdateFn trackId status bytes err n1 pl) := by
        rw [findPlaylist_modify, hfp]
        rfl
      have hfp1 : findPlaylist name
          (updateTrackStatus name trackId status bytes err n1 s).playlists
          = some (statusUpdateFn trackId status bytes err n1 pl) := by
        rw [e1]
        exact hq1
      have h2b : (firstWithId trackId
          (statusUpdateFn trackId status bytes err n1 pl).tracks).isSome = true := by
        show (firstWithId trackId (updateFirstTrack trackId
          (applyStatusUpdate status bytes err) pl.tracks)).isSome = true
        rw [firstWithId_update_isSome _ _ _ hid]
        exact h2
      have e2 := updateTrackStatus_shape name trackId status bytes err n2 _ _ hfp1 h2b
      have hkey := statusUpdateFn_twice trackId status bytes err n1 n2 pl hs
      rw [e2, e1]
      show ({ s with
          playlists := (modifyPlaylist name (statusUpdateFn trackId status bytes err n2)
            (modifyPlaylist name (statusUpdateFn trackId status bytes err n1) s.playlists)).map stripEntry
          overallProgress := progressOf (modifyPlaylist name (statusUpdateFn trackId status bytes err n2)
            (modifyPlaylist name (statusUpdateFn trackId status bytes err n1) s.playlists)) } : DownloadState)
        = { s with
            playlists := (modifyPlaylist name (statusUpdateFn trackId status bytes err n1) s.playlists).map stripEntry
            overallProgress := progressOf
              (modifyPlaylist name (statusUpdateFn trackId status bytes err n1) s.playlists) }
      rw [map_strip_modify name _ _ _ hq1 (by rw [hkey]),
          progressOf_modify name _ _ _ hq1 (by rw [hkey]) (by rw [hkey]) (by rw [hkey]) (by rw [hkey])]
    · have e1 : updateTrackStatus name trackId status bytes err n1 s = s := by
        simp [updateTrackStatus, hfp, h2]
      have e2 : updateTrackStatus name trackId status bytes err n2 s = s := by
        simp [updateTrackStatus, hfp, h2]
      rw [e1, e2]

/-- Counterexample for C7 as stated: a FAILED transition applied twice with
identical arguments increments the retry count twice, so the store observably
differs from a single application. -/
theorem c7_counterexample :
    stripTimes (updateTrackStatus "P" "a" TrackStatus.failed none (some "boom") 1
        (updateTrackStatus "P" "a" TrackStatus.failed none (some "boom") 0
          (mkStateP [mkTrack "a" "a.m4a" (some TrackStatus.pending) (some 0)])))
      ≠ stripTimes (updateTrackStatus "P" "a" TrackStatus.failed none (some "boom") 0
          (mkStateP [mkTrack "a" "a.m4a" (some TrackStatus.pending) (some 0)])) := by
  decide

/-- Witness for the amended C7: a COMPLETED transition applied twice. -/
theorem c7_idempotent_update_witness :
    TrackStatus.completed ≠ TrackStatus.failed ∧
    stripTimes (updateTrackStatus "P" "a" TrackStatus.completed (some 9) none 1
        (updateTrackStatus "P" "a" TrackStatus.completed (some 9) none 0
          (mkStateP [mkTrack "a" "a.m4a" (some TrackStatus.pending) (some 0)])))
      = stripTimes (updateTrackStatus "P" "a" TrackStatus.completed (some 9) none 0
          (mkStateP [mkTrack "a" "a.m4a" (some TrackStatus.pending) (some 0)])) :=
  ⟨by decide,
   c7_idempotent_update "P" "a" TrackStatus.completed (some 9) none 0 1
     (mkStateP [mkTrack "a" "a.m4a" (some TrackStatus.pending) (some 0)]) (by decide)⟩

/-- File paths of a track list. -/
def pathsOfT (ts : List Track) : List String :=
  ts.map Track.filePath

/-- Ids of a track list. -/
def idsOfT (ts : List Track) : List String :=
  ts.map Track.id

/-- Statuses of a track list, in position. -/
def statusesOf (ts : List Track) : List (Option TrackStatus) :=
  ts.map Track.status

/-- First track with the given file path (the find of the merge's promotion
branch). -/
def firstWithPath (fp : String) : List Track → Option Track
  | [] => none
  | t :: ts => if t.filePath = fp then some t else firstWithPath fp ts

/-- The first track with the given file path, when there is one, is already
COMPLETED.  Under this invariant the promotion branch is the identity. -/
def promotedAt (fp : String) (ts : List Track) : Prop :=
  ∀ u, firstWithPath fp ts = some u → u.status = some TrackStatus.completed

/-- Promotion is the identity when the first match is already COMPLETED. -/
theorem promoteFirst_eq_of_promotedAt (fp : String) (ts : List Track)
    (h : promotedAt fp ts) : promoteFirst fp ts = ts := by
  induction ts with
  | nil => rfl
  | cons t ts ih =>
    by_cases ht : t.filePath = fp
    · have hc := h t (by simp [firstWithPath, ht])
      simp [promoteFirst, ht, hc]
    · have h2 : promotedAt fp ts := by
        intro u hu
        exact h u (by simp [firstWithPath, ht, hu])
      simp [promoteFirst, ht, ih h2]

/-- After promotion the first match with the promoted path is COMPLETED. -/
theorem promotedAt_promoteFirst (fp : String) (ts : List Track) :
    promotedAt fp (promoteFirst fp ts) := by
  induction ts with
  | nil => intro u hu; simp [promoteFirst, firstWithPath] at hu
  | cons t ts ih =>
    by_cases ht : t.filePath = fp
    · intro u hu
      by_cases hc : t.status = some TrackStatus.completed
      · simp [promoteFirst, ht, hc, firstWithPath] at hu
        rw [← hu]
        exact hc
      · simp [promoteFirst, ht, hc, firstWithPath] at hu
        rw [← hu]
    · intro u hu
      simp [promoteFirst, ht, firstWithPath] at hu
      exact ih u hu

/-- Promotion of a different path does not move the first match of a path. -/
theorem firstWithPath_promoteFirst_ne (fp fp2 : String) (ts : List Track) (hne : fp ≠ fp2) :
    firstWithPath fp (promoteFirst fp2 ts) = firstWithPath fp ts := by
  have hne2 : ¬ fp2 = fp := fun h => hne h.symm
  induction ts with
  | nil => rfl
  | cons t ts ih =>
    by_cases ht : t.filePath = fp2
    · have hnfp : ¬ t.filePath = fp := by
        rw [ht]
        exact hne2
      by_cases hc : t.status = some TrackStatus.completed <;>
        simp [promoteFirst, firstWithPath, ht, hc, hnfp, hne, hne2]
    · by_cases hfp : t.filePath = fp <;>
        simp [promoteFirst, firstWithPath, ht, hfp, ih, hne, hne2]

/-- Promotion of any path preserves the promoted-at invariant. -/
theorem promotedAt_promoteFirst_any (fp fp2 : String) (ts : List Track)
    (h : promotedAt fp ts) : promotedAt fp (promoteFirst fp2 ts) := by
  by_cases he : fp = fp2
  · rw [he]
    exact promotedAt_promoteFirst fp2 ts
  · intro u hu
    rw [firstWithPath_promoteFirst_ne fp fp2 ts he] at hu
    exact h u hu

/-- Promotion preserves the file paths, in position. -/
theorem pathsOfT_promoteFirst (fp : String) (ts : List Track) :
    pathsOfT (promoteFirst fp ts) = pathsOfT ts := by
  induction ts with
  | nil => rfl
  | cons t ts ih =>
    by_cases ht : t.filePath = fp
    · by_cases hc : t.status = some TrackStatus.completed <;>
        simp [promoteFirst, pathsOfT, ht, hc]
    · simpa [promoteFirst, pathsOfT, ht] using ih

/-- Promotion preserves the ids, in position. -/
theorem idsOfT_promoteFirst (fp : String) (ts : List Track) :
    idsOfT (promoteFirst fp ts) = idsOfT ts := by
  induction ts with
  | nil => rfl
  | cons t ts ih =>
    by_cases ht : t.filePath = fp
    · by_cases hc : t.status = some TrackStatus.completed <;>
        simp [promoteFirst, idsOfT, ht, hc]
    · simpa [promoteFirst, idsOfT, ht] using ih

/-- A path has no first match exactly when it is absent from the path list. -/
theorem firstWithPath_eq_none (fp : String) (ts : List Track) :
    firstWithPath fp ts = none ↔ fp ∉ pathsOfT ts := by
  induction ts with
  | nil => simp [firstWithPath, pathsOfT]
  | cons t ts ih =>
    by_cases ht : t.filePath = fp
    · simp [firstWithPath, pathsOfT, ht]
    · have hstep : firstWithPath fp (t :: ts) = firstWithPath fp ts := by
        simp [firstWithPath, ht]
      have hmem : fp ∈ pathsOfT (t :: ts) ↔ (fp = t.filePath ∨ fp ∈ pathsOfT ts) := by
        simp [pathsOfT]
      rw [hstep, ih]
      constructor
      · intro h hx
        rcases hmem.mp hx with h1 | h2
        · exact ht h1.symm
        · exact h h2
      · intro h hx
        exact h (hmem.mpr (Or.inr hx))

/-- First match in an appended list when the prefix has none. -/
theorem firstWithPath_append_none (fp : String) (ts us : List Track)
    (h : firstWithPath fp ts = none) :
    firstWithPath fp (ts ++ us) = firstWithPath fp us := by
  induction ts with
  | nil => rfl
  | cons t ts ih =>
    by_cases ht : t.filePath = fp
    · simp [firstWithPath, ht] at h
    · simp only [firstWithPath, ht, if_false] at h
      simp only [List.cons_append]
      simp only [firstWithPath, ht, if_false]
      exact ih h

/-- First match in an appended list when the prefix has one. -/
theorem firstWithPath_append_some (fp : String) (ts us : List Track) (u : Track)
    (h : firstWithPath fp ts = some u) :
    firstWithPath fp (ts ++ us) = some u := by
  induction ts with
  | nil => simp [firstWithPath] at h
  | cons t ts ih =>
    by_cases ht : t.filePath = fp
    · simp only [firstWithPath, ht, if_true] at h
      simp only [List.cons_append]
      simp only [firstWithPath, ht, if_true]
      exact h
    · simp only [firstWithPath, ht, if_false] at h
      simp only [List.cons_append]
      simp only [firstWithPath, ht, if_false]
      exact ih h

/-- Appending a track that is COMPLETED whenever it carries the watched path
preserves the promoted-at invariant. -/
theorem promotedAt_append (fp : String) (ts : List Track) (u : Track)
    (h : promotedAt fp ts)
    (hu : u.filePath = fp → u.status = some TrackStatus.completed) :
    promotedAt fp (ts ++ [u]) := by
  intro v hv
  cases hf : firstWithPath fp ts with
  | none =>
    rw [firstWithPath_append_none fp ts [u] hf] at hv
    by_cases hup : u.filePath = fp
    · simp [firstWithPath, hup] at hv
      rw [← hv]
      exact hu hup
    · simp [firstWithPath, hup] at hv
  | some w =>
    rw [firstWithPath_append_some fp ts [u] w hf] at hv
    have hw : w = v := Option.some.inj hv
    rw [← hw]
    exact h w hf

/-- Normalization keeps the file path. -/
theorem normalizeNewTrack_filePath (t : Track) :
    (normalizeNewTrack t).filePath = t.filePath := rfl

/-- Normalization keeps the id. -/
theorem normalizeNewTrack_id (t : Track) : (normalizeNewTrack t).id = t.id := rfl

/-- A known-path merge step does not change the stored paths. -/
theorem pathsOfT_mergeOne_mem (paths : List String) (acc : List Track) (t : Track)
    (hmem : t.filePath ∈ paths) :
    pathsOfT (mergeOne paths acc t) = pathsOfT acc := by
  by_cases hst : t.status = some TrackStatus.completed <;>
    simp [mergeOne, hmem, hst, pathsOfT_promoteFirst]

/-- An unknown-path merge step appends the new path. -/
theorem mergeOne_insert (paths : List String) (acc : List Track) (t : Track)
    (hmem : t.filePath ∉ paths) :
    mergeOne paths acc t = acc ++ [normalizeNewTrack t] := by
  simp [mergeOne, hmem]

/-- A merge step never removes a stored path. -/
theorem pathsOfT_mergeOne_sub (paths : List String) (acc : List Track) (t : Track)
    (fp : String) (h : fp ∈ pathsOfT acc) : fp ∈ pathsOfT (mergeOne paths acc t) := by
  by_cases hmem : t.filePath ∈ paths
  · rw [pathsOfT_mergeOne_mem paths acc t hmem]
    exact h
  · rw [mergeOne_insert paths acc t hmem]
    simp only [pathsOfT, List.map_append, List.mem_append]
    exact Or.inl h

/-- The merge loop never removes a stored path. -/
theorem pathsOfT_mergeTracks_sub (paths : List String) (l : List Track) :
    ∀ acc fp, fp ∈ pathsOfT acc → fp ∈ pathsOfT (mergeTracks paths acc l) := by
  induction l with
  | nil => intro acc fp h; exact h
  | cons t rest ih =>
    intro acc fp h
    exact ih (mergeOne paths acc t) fp (pathsOfT_mergeOne_sub paths acc t fp h)

/-- The merge loop preserves the promoted-at invariant of a path carried by
none of the remaining descriptors. -/
theorem promotedAt_mergeTracks_fresh (paths : List String) (l : List Track) :
    ∀ acc fp, (∀ t ∈ l, t.filePath ≠ fp) → promotedAt fp acc →
      promotedAt fp (mergeTracks paths acc l) := by
  induction l with
  | nil => intro acc fp _ h; exact h
  | cons t rest ih =>
    intro acc fp hne h
    have hstep : promotedAt fp (mergeOne paths acc t) := by
      by_cases hmem : t.filePath ∈ paths
      · by_cases hst : t.status = some TrackStatus.completed
        · have e : mergeOne paths acc t = promoteFirst t.filePath acc := by
            simp [mergeOne, hmem, hst]
          rw [e]
          exact promotedAt_promoteFirst_any fp t.filePath acc h
        · have e : mergeOne paths acc t = acc := by
            simp [mergeOne, hmem, hst]
          rw [e]
          exact h
      · rw [mergeOne_insert paths acc t hmem]
        refine promotedAt_append fp acc (normalizeNewTrack t) h ?_
        intro hp
        rw [normalizeNewTrack_filePath] at hp
        exact absurd hp (hne t (by simp))
    exact ih (mergeOne paths acc t) fp (fun u hu => hne u (by simp [hu])) hstep

/-- Postcondition of the initPlaylist merge loop: every incoming descriptor's
path is stored afterwards, and for every incoming descriptor reporting
COMPLETED the first stored track with its path is COMPLETED afterwards.
Hypotheses: the incoming paths are pairwise distinct, the pre-merge path set
is exactly the stored paths, and an incoming path outside the pre-merge set
is not yet stored. -/
theorem mergeTracks_post (paths : List String) (l : List Track) :
    ∀ acc : List Track,
    l.Pairwise (fun a b => a.filePath ≠ b.filePath) →
    (∀ t ∈ l, t.filePath ∉ paths → t.filePath ∉ pathsOfT acc) →
    (∀ fp ∈ paths, fp ∈ pathsOfT acc) →
    (∀ t ∈ l, t.filePath ∈ pathsOfT (mergeTracks paths acc l)) ∧
    (∀ t ∈ l, t.status = some TrackStatus.completed →
        promotedAt t.filePath (mergeTracks paths acc l)) := by
  induction l with
  | nil =>
    intro acc _ _ _
    exact ⟨by simp, by simp⟩
  | cons t0 rest ih =>
    intro acc hpw hfresh hpaths
    have hpw' := (List.pairwise_cons.mp hpw).2
    have hne0 : ∀ b ∈ rest, t0.filePath ≠ b.filePath := (List.pairwise_cons.mp hpw).1
    have hfold : mergeTracks paths acc (t0 :: rest)
        = mergeTracks paths (mergeOne paths acc t0) rest := rfl
    have hmem0 : t0.filePath ∈ pathsOfT (mergeOne paths acc t0) := by
      by_cases hmem : t0.filePath ∈ paths
      · rw [pathsOfT_mergeOne_mem paths acc t0 hmem]
        exact hpaths _ hmem
      · rw [mergeOne_insert paths acc t0 hmem]
        simp [pathsOfT, normalizeNewTrack]
    have hfresh1 : ∀ t ∈ rest, t.filePath ∉ paths →
        t.filePath ∉ pathsOfT (mergeOne paths acc t0) := by
      intro t ht hnp
      by_cases hmem : t0.filePath ∈ paths
      · rw [pathsOfT_mergeOne_mem paths acc t0 hmem]
        exact hfresh t (by simp [ht]) hnp
      · rw [mergeOne_insert paths acc t0 hmem]
        simp only [pathsOfT, List.map_append, List.mem_append]
        intro hx
        rcases hx with hx | hx
        · exact hfresh t (by simp [ht]) hnp hx
        · simp only [List.map_cons, List.map_nil, List.mem_singleton] at hx
          rw [normalizeNewTrack_filePath] at hx
          exact hne0 t ht hx.symm
    have hpaths1 : ∀ fp ∈ paths, fp ∈ pathsOfT (mergeOne paths acc t0) :=
      fun fp hfp => pathsOfT_mergeOne_sub paths acc t0 fp (hpaths fp hfp)
    obtain ⟨ih1, ih2⟩ := ih (mergeOne paths acc t0) hpw' hfresh1 hpaths1
    constructor
    · intro t ht
      rcases List.mem_cons.mp ht with h1 | h2
      · rw [hfold, h1]
        exact pathsOfT_mergeTracks_sub paths rest (mergeOne paths acc t0) t0.filePath hmem0
      · rw [hfold]
        exact ih1 t h2
    · intro t ht htc
      rcases List.mem_cons.mp ht with h1 | h2
      · subst h1
        rw [hfold]
        have hstart : promotedAt t.filePath (mergeOne paths acc t) := by
          by_cases hmem : t.filePath ∈ paths
          · have e : mergeOne paths acc t = promoteFirst t.filePath acc := by
              simp [mergeOne, hmem, htc]
            rw [e]
            exact promotedAt_promoteFirst t.filePath acc
          · rw [mergeOne_insert paths acc t hmem]
            have hnone : firstWithPath t.filePath acc = none :=
              (firstWithPath_eq_none _ _).mpr (hfresh t (by simp) hmem)
            refine promotedAt_append t.filePath acc (normalizeNewTrack t) ?_ ?_
            · intro u hu
              rw [hnone] at hu
              cases hu
            · intro _
              simp [normalizeNewTrack, htc]
        exact promotedAt_mergeTracks_fresh paths rest (mergeOne paths acc t) t.filePath
          (fun b hb => fun hx => hne0 b hb hx.symm) hstart
      · rw [hfold]
        exact ih2 t h2 htc

/-- When every incoming path is already stored and every COMPLETED incoming
descriptor's first stored match is already COMPLETED, the merge loop is the
identity. -/
theorem mergeTracks_idem (merged : List Track) (l : List Track)
    (hmem : ∀ t ∈ l, t.filePath ∈ pathsOfT merged)
    (hprom : ∀ t ∈ l, t.status = some TrackStatus.completed →
        promotedAt t.filePath merged) :
    mergeTracks (pathsOfT merged) merged l = merged := by
  induction l with
  | nil => rfl
  | cons t rest ih =>
    have hstep : mergeOne (pathsOfT merged) merged t = merged := by
      have hm := hmem t (by simp)
      by_cases hst : t.status = some TrackStatus.completed
      · have e : mergeOne (pathsOfT merged) merged t = promoteFirst t.filePath merged := by
          simp [mergeOne, hm, hst]
        rw [e]
        exact promoteFirst_eq_of_promotedAt t.filePath merged (hprom t (by simp) hst)
      · simp [mergeOne, hm, hst]
    show mergeTracks (pathsOfT merged) (mergeOne (pathsOfT merged) merged t) rest = merged
    rw [hstep]
    exact ih (fun u hu => hmem u (by simp [hu])) (fun u hu => hprom u (by simp [hu]))

/-- Repair is the identity when no stored id is malformed, and consumes no
randomness. -/
theorem fixMalformedIds_eq_self (name : String) (ts : List Track) (oracle : List String)
    (h : ∀ t ∈ ts, t.id ≠ name ++ "-undefined") :
    fixMalformedIds name ts oracle = (ts, oracle) := by
  induction ts with
  | nil => rfl
  | cons t ts ih =>
    have hne : ¬ (t.id = name ++ "-undefined") := h t (by simp)
    simp [fixMalformedIds, hne, ih fun u hu => h u (by simp [hu])]

/-- A regenerated id suffix has at most 8 characters. -/
theorem freshSuffix_length (o : String) : (freshSuffix o).length ≤ 8 := by
  show ((o.data.drop 2).take 8).length ≤ 8
  rw [List.length_take]
  exact min_le_left _ _

/-- A regenerated id never matches the malformed pattern: its suffix is at
most 8 characters while "undefined" has 9. -/
theorem freshId_ne (name o : String) :
    name ++ "-" ++ freshSuffix o ≠ name ++ "-undefined" := by
  intro h
  have hlen := congrArg String.length h
  rw [String.length_append, String.length_append, String.length_append] at hlen
  have h8 := freshSuffix_length o
  have h1 : ("-" : String).length = 1 := rfl
  have h10 : ("-undefined" : String).length = 10 := rfl
  omega

/-- After repair no stored id is malformed. -/
theorem fixMalformedIds_noMalformed (name : String) (ts : List Track) :
    ∀ oracle, ∀ t ∈ (fixMalformedIds name ts oracle).1, t.id ≠ name ++ "-undefined" := by
  induction ts with
  | nil => intro oracle t ht; simp [fixMalformedIds] at ht
  | cons t ts ih =>
    intro oracle u hu
    by_cases hid : t.id = name ++ "-undefined"
    · simp only [fixMalformedIds, hid, if_pos] at hu
      rcases List.mem_cons.mp hu with h1 | h2
      · rw [h1]
        exact freshId_ne name _
      · exact ih oracle.tail u h2
    · simp only [fixMalformedIds, hid, if_false] at hu
      rcases List.mem_cons.mp hu with h1 | h2
      · rw [h1]
        exact hid
      · exact ih oracle u h2

/-- Repair keeps the statuses, in position. -/
theorem statusesOf_fixMalformedIds (name : String) (ts : List Track) :
    ∀ oracle, statusesOf (fixMalformedIds name ts oracle).1 = statusesOf ts := by
  induction ts with
  | nil => intro oracle; rfl
  | cons t ts ih =>
    intro oracle
    by_cases hid : t.id = name ++ "-undefined" <;>
      simp [fixMalformedIds, hid, statusesOf, ih] <;> simpa [statusesOf] using ih _

/-- Every id stored after the merge loop comes from the accumulator or from
an incoming descriptor. -/
theorem idsOfT_mergeTracks_sub (paths : List String) (l : List Track) :
    ∀ acc x, x ∈ idsOfT (mergeTracks paths acc l) →
      x ∈ idsOfT acc ∨ x ∈ l.map Track.id := by
  induction l with
  | nil => intro acc x hx; exact Or.inl hx
  | cons t rest ih =>
    intro acc x hx
    rcases ih (mergeOne paths acc t) x hx with h1 | h2
    · by_cases hmem : t.filePath ∈ paths
      · by_cases hst : t.status = some TrackStatus.completed
        · have e : mergeOne paths acc t = promoteFirst t.filePath acc := by
            simp [mergeOne, hmem, hst]
          rw [e, idsOfT_promoteFirst] at h1
          exact Or.inl h1
        · have e : mergeOne paths acc t = acc := by
            simp [mergeOne, hmem, hst]
          rw [e] at h1
          exact Or.inl h1
      · rw [mergeOne_insert paths acc t hmem] at h1
        simp only [idsOfT, List.map_append, List.mem_append] at h1
        rcases h1 with h1 | h1
        · exact Or.inl h1
        · simp only [List.map_cons, List.map_nil, List.mem_singleton, normalizeNewTrack_id] at h1
          exact Or.inr (by simp [h1])
    · exact Or.inr (by simp [h2])

/-- Positional COMPLETED statuses survive a promotion. -/
theorem statusesOf_promoteFirst_completed (fp : String) (ts : List Track) :
    ∀ i, (statusesOf ts).get? i = some (some TrackStatus.completed) →
      (statusesOf (promoteFirst fp ts)).get? i = some (some TrackStatus.completed) := by
  induction ts with
  | nil => intro i hi; simp [statusesOf] at hi
  | cons t ts ih =>
    intro i hi
    by_cases ht : t.filePath = fp
    · by_cases hc : t.status = some TrackStatus.completed
      · simpa [promoteFirst, ht, hc, statusesOf] using hi
      · cases i with
        | zero => simp [statusesOf] at hi; exact absurd hi hc
        | succ n => simpa [promoteFirst, ht, hc, statusesOf] using hi
    · cases i with
      | zero => simpa [promoteFirst, ht, statusesOf] using hi
      | succ n =>
        simp only [statusesOf, List.map_cons, List.get?_cons_succ] at hi
        simp only [promoteFirst, ht, if_false, statusesOf, List.map_cons, List.get?_cons_succ]
        exact ih n hi

/-- Positional COMPLETED statuses survive one merge step. -/
theorem statusesOf_mergeOne_completed (paths : List String) (acc : List Track) (t : Track) :
    ∀ i, (statusesOf acc).get? i = some (some TrackStatus.completed) →
      (statusesOf (mergeOne paths acc t)).get? i = some (some TrackStatus.completed) := by
  intro i hi
  by_cases hmem : t.filePath ∈ paths
  · by_cases hst : t.status = some TrackStatus.completed
    · have e : mergeOne paths acc t = promoteFirst t.filePath acc := by
        simp [mergeOne, hmem, hst]
      rw [e]
      exact statusesOf_promoteFirst_completed t.filePath acc i hi
    · have e : mergeOne paths acc t = acc := by
        simp [mergeOne, hmem, hst]
      rw [e]
      exact hi
  · rw [mergeOne_insert paths acc t hmem]
    have hlt : i < (statusesOf acc).length := (List.get?_eq_some.mp hi).1
    have happ : statusesOf (acc ++ [normalizeNewTrack t])
        = statusesOf acc ++ statusesOf [normalizeNewTrack t] := by
      simp [statusesOf]
    rw [happ, List.get?_append hlt]
    exact hi

/-- Positional COMPLETED statuses survive the whole merge loop. -/
theorem statusesOf_mergeTracks_completed (paths : List String) (l : List Track) :
    ∀ acc i, (statusesOf acc).get? i = some (some TrackStatus.completed) →
      (statusesOf (mergeTracks paths acc l)).get? i = some (some TrackStatus.completed) := by
  induction l with
  | nil => intro acc i hi; exact hi
  | cons t rest ih =>
    intro acc i hi
    exact ih (mergeOne paths acc t) i (statusesOf_mergeOne_completed paths acc t i hi)

/-- Appending a record for a missing key makes it the lookup result. -/
theorem findPlaylist_append_self (name : String) (l : List (String × PlaylistRecord))
    (q : PlaylistRecord) (h : findPlaylist name l = none) :
    findPlaylist name (l ++ [(name, q)]) = some q := by
  induction l with
  | nil => simp [findPlaylist]
  | cons p ps ih =>
    by_cases hp : p.1 = name
    · simp [findPlaylist, hp] at h
    · simp only [findPlaylist, hp, if_false] at h
      simp only [List.cons_append, findPlaylist, hp, if_false]
      exact ih h

/-- An in-place modification that fixes the looked-up record is the identity. -/
theorem modifyPlaylist_eq_self (name : String) (f : PlaylistRecord → PlaylistRecord)
    (l : List (String × PlaylistRecord)) (q : PlaylistRecord)
    (hq : findPlaylist name l = some q) (hid : f q = q) :
    modifyPlaylist name f l = l := by
  induction l with
  | nil => rfl
  | cons p ps ih =>
    by_cases hp : p.1 = name
    · simp only [findPlaylist, hp, if_true] at hq
      cases hq
      have hpp : (name, p.2) = p := by rw [← hp]
      simp [modifyPlaylist, hp, hid, hpp]
    · simp only [findPlaylist, hp, if_false] at hq
      simp [modifyPlaylist, hp, ih hq]

/-- Shape of initPlaylist on an existing playlist: one composed in-place
modification (repair ids, merge, reset the total, recount) followed by the
overall-progress recomputation; the repair's leftover oracle is returned. -/
theorem initPlaylist_shape (name : String) (incoming : List Track) (now : Nat)
    (oracle : List String) (s : DownloadState) (pl : PlaylistRecord)
    (h : findPlaylist name s.playlists = some pl) :
    initPlaylist name incoming now oracle s
      = ({ s with
            playlists := modifyPlaylist name (fun p => recalcCountsFn
              { p with
                tracks := mergeTracks ((fixMalformedIds name pl.tracks oracle).1.map Track.filePath)
                  (fixMalformedIds name pl.tracks oracle).1 incoming
                totalCount := incoming.length }) s.playlists
            overallProgress := progressOf (modifyPlaylist name (fun p => recalcCountsFn
              { p with
                tracks := mergeTracks ((fixMalformedIds name pl.tracks oracle).1.map Track.filePath)
                  (fixMalformedIds name pl.tracks oracle).1 incoming
                totalCount := incoming.length }) s.playlists) },
         (fixMalformedIds name pl.tracks oracle).2) := by
  simp only [initPlaylist, h, Option.isNone_some, Bool.false_eq_true, if_false,
    recalculateProgress, recalculatePlaylistCounts, modifyPlaylist_modify]

/-- Creating a missing playlist first and then running initPlaylist on the
grown store gives the same result as running it directly. -/
theorem initPlaylist_create (name : String) (incoming : List Track) (now : Nat)
    (oracle : List String) (s : DownloadState)
    (h : findPlaylist name s.playlists = none) :
    initPlaylist name incoming now oracle s
      = initPlaylist name incoming now oracle
          { s with playlists := s.playlists ++ [(name, emptyPlaylistRecord now)] } := by
  have h2 : findPlaylist name (s.playlists ++ [(name, emptyPlaylistRecord now)])
      = some (emptyPlaylistRecord now) := findPlaylist_append_self name s.playlists _ h
  simp only [initPlaylist, h, h2, Option.isNone_none, Option.isNone_some, if_true,
    Bool.false_eq_true, if_false]

/-- A second initPlaylist call is the identity on a store whose named
playlist already reflects the incoming list: no stored id malformed, every
incoming path stored, every COMPLETED incoming descriptor's first stored
match COMPLETED, total count already the incoming count, cached counts
already consistent, and overall progress already consistent. -/
theorem initPlaylist_second_id (name : String) (incoming : List Track) (now : Nat)
    (oracle : List String) (s : DownloadState) (plM : PlaylistRecord)
    (hfind : findPlaylist name s.playlists = some plM)
    (hmal : ∀ t ∈ plM.tracks, t.id ≠ name ++ "-undefined")
    (hmem : ∀ t ∈ incoming, t.filePath ∈ pathsOfT plM.tracks)
    (hprom : ∀ t ∈ incoming, t.status = some TrackStatus.completed →
        promotedAt t.filePath plM.tracks)
    (htc : plM.totalCount = incoming.length)
    (hrc : recalcCountsFn plM = plM)
    (hprog : s.overallProgress = progressOf s.playlists) :
    initPlaylist name incoming now oracle s = (s, oracle) := by
  have hfix : fixMalformedIds name plM.tracks oracle = (plM.tracks, oracle) :=
    fixMalformedIds_eq_self name plM.tracks oracle hmal
  have hmrg : mergeTracks (plM.tracks.map Track.filePath) plM.tracks incoming = plM.tracks :=
    mergeTracks_idem plM.tracks incoming hmem hprom
  have hG : recalcCountsFn
      { plM with
        tracks := mergeTracks ((fixMalformedIds name plM.tracks oracle).1.map Track.filePath)
          (fixMalformedIds name plM.tracks oracle).1 incoming
        totalCount := incoming.length } = plM := by
    rw [hfix]
    simp only []
    rw [hmrg, ← htc]
    have he : ({ plM with tracks := plM.tracks, totalCount := plM.totalCount } : PlaylistRecord)
        = plM := rfl
    rw [he]
    exact hrc
  have hmod : modifyPlaylist name (fun p => recalcCountsFn
      { p with
        tracks := mergeTracks ((fixMalformedIds name plM.tracks oracle).1.map Track.filePath)
          (fixMalformedIds name plM.tracks oracle).1 incoming
        totalCount := incoming.length }) s.playlists = s.playlists :=
    modifyPlaylist_eq_self name _ s.playlists plM hfind hG
  rw [initPlaylist_shape name incoming now oracle s plM hfind, hmod, hfix]
  rw [← hprog]

/-- On a store where the playlist exists, a second initPlaylist call with the
same descriptor list (pairwise-distinct paths, no malformed incoming id) is
the identity. -/
theorem initPlaylist_twice_of_found (name : String) (incoming : List Track)
    (n1 n2 : Nat) (oracle : List String) (s : DownloadState) (pl : PlaylistRecord)
    (hfp : findPlaylist name s.playlists = some pl)
    (hpw : incoming.Pairwise (fun a b => a.filePath ≠ b.filePath))
    (hids : ∀ t ∈ incoming, t.id ≠ name ++ "-undefined") :
    initPlaylist name incoming n2 (initPlaylist name incoming n1 oracle s).2
        (initPlaylist name incoming n1 oracle s).1
      = initPlaylist name incoming n1 oracle s := by
  have e1 := initPlaylist_shape name incoming n1 oracle s pl hfp
  have hfind2 : findPlaylist name (initPlaylist name incoming n1 oracle s).1.playlists
      = some (recalcCountsFn
        { pl with
          tracks := mergeTracks ((fixMalformedIds name pl.tracks oracle).1.map Track.filePath)
            (fixMalformedIds name pl.tracks oracle).1 incoming
          totalCount := incoming.length }) := by
    rw [e1]
    show findPlaylist name (modifyPlaylist name _ s.playlists) = _
    rw [findPlaylist_modify, hfp]
    rfl
  have hfresh0 : ∀ t ∈ incoming,
      t.filePath ∉ (fixMalformedIds name pl.tracks oracle).1.map Track.filePath →
      t.filePath ∉ pathsOfT (fixMalformedIds name pl.tracks oracle).1 :=
    fun _ _ h => h
  have hpaths0 : ∀ fp ∈ (fixMalformedIds name pl.tracks oracle).1.map Track.filePath,
      fp ∈ pathsOfT (fixMalformedIds name pl.tracks oracle).1 :=
    fun _ h => h
  obtain ⟨hmemM, hpromM⟩ := mergeTracks_post
    ((fixMalformedIds name pl.tracks oracle).1.map Track.filePath) incoming
    (fixMalformedIds name pl.tracks oracle).1 hpw hfresh0 hpaths0
  have hmalM : ∀ t ∈ mergeTracks ((fixMalformedIds name pl.tracks oracle).1.map Track.filePath)
      (fixMalformedIds name pl.tracks oracle).1 incoming,
      t.id ≠ name ++ "-undefined" := by
    intro t ht hbad
    have hin : t.id ∈ idsOfT (mergeTracks
        ((fixMalformedIds name pl.tracks oracle).1.map Track.filePath)
        (fixMalformedIds name pl.tracks oracle).1 incoming) :=
      List.mem_map_of_mem Track.id ht
    rcases idsOfT_mergeTracks_sub _ incoming _ t.id hin with h1 | h2
    · rcases List.mem_map.mp h1 with ⟨u, hu, hui⟩
      exact fixMalformedIds_noMalformed name pl.tracks oracle u hu (by rw [hui, hbad])
    · rcases List.mem_map.mp h2 with ⟨u, hu, hui⟩
      exact hids u hu (by rw [hui, hbad])
  exact initPlaylist_second_id name incoming n2
    (initPlaylist name incoming n1 oracle s).2
    (initPlaylist name incoming n1 oracle s).1
    (recalcCountsFn
      { pl with
        tracks := mergeTracks ((fixMalformedIds name pl.tracks oracle).1.map Track.filePath)
          (fixMalformedIds name pl.tracks oracle).1 incoming
        totalCount := incoming.length })
    hfind2 hmalM hmemM hpromM rfl (recalcCountsFn_idem _) (by rw [e1])

/-- Tracks of the named playlist after initPlaylist: the repaired previous
tracks merged with the incoming descriptors (previous tracks are empty when
the playlist was just created). -/
theorem initPlaylist_tracksOf (name : String) (incoming : List Track) (now : Nat)
    (oracle : List String) (s : DownloadState) :
    tracksOf name (initPlaylist name incoming now oracle s).1
      = mergeTracks ((fixMalformedIds name (tracksOf name s) oracle).1.map Track.filePath)
          (fixMalformedIds name (tracksOf name s) oracle).1 incoming := by
  cases hfp : findPlaylist name s.playlists with
  | none =>
    rw [initPlaylist_create name incoming now oracle s hfp]
    have hfp2 := findPlaylist_append_self name s.playlists (emptyPlaylistRecord now) hfp
    rw [initPlaylist_shape name incoming now oracle _ (emptyPlaylistRecord now) hfp2]
    have htr : tracksOf name s = [] := by simp [tracksOf, hfp]
    rw [htr]
    show tracksOf name { s with
        playlists := modifyPlaylist name _ (s.playlists ++ [(name, emptyPlaylistRecord now)]) } = _
    simp only [tracksOf, findPlaylist_modify, hfp2, Option.map_some', Option.getD_some]
    rfl
  | some pl =>
    rw [initPlaylist_shape name incoming now oracle s pl hfp]
    have htr : tracksOf name s = pl.tracks := by simp [tracksOf, hfp]
    rw [htr]
    show tracksOf name { s with playlists := modifyPlaylist name _ s.playlists } = _
    simp only [tracksOf, findPlaylist_modify, hfp, Option.map_some', Option.getD_some]
    rfl

/-- Empty persistent state (no playlists yet). -/
def emptyState : DownloadState :=
  { playlists := []
    currentPlaylist := ""
    overallProgress := { total := 0, completed := 0, failed := 0, pending := 0 }
    startTime := 0 }

/-- C2 (amended): provided the incoming descriptors carry pairwise-distinct
file paths and none has the malformed id name-undefined (such ids would be
repaired with a fresh random id on each call), running initPlaylist twice
with the same descriptor list yields exactly the state and leftover
randomness of running it once; and, with no side condition, the second call
never regresses a stored COMPLETED track: every position holding a COMPLETED
track still holds a COMPLETED track after any initPlaylist call. -/
theorem c2_init_idempotent :
    (∀ (name : String) (incoming : List Track) (n1 n2 : Nat) (oracle : List String)
        (s : DownloadState),
      incoming.Pairwise (fun a b => a.filePath ≠ b.filePath) →
      (∀ t ∈ incoming, t.id ≠ name ++ "-undefined") →
      initPlaylist name incoming n2 (initPlaylist name incoming n1 oracle s).2
          (initPlaylist name incoming n1 oracle s).1
        = initPlaylist name incoming n1 oracle s) ∧
    (∀ (name : String) (incoming : List Track) (now : Nat) (oracle : List String)
        (s : DownloadState) (i : Nat),
      (statusesOf (tracksOf name s)).get? i = some (some TrackStatus.completed) →
      (statusesOf (tracksOf name (initPlaylist name incoming now oracle s).1)).get? i
        = some (some TrackStatus.completed)) := by
  constructor
  · intro name incoming n1 n2 oracle s hpw hids
    cases hfp : findPlaylist name s.playlists with
    | some pl => exact initPlaylist_twice_of_found name incoming n1 n2 oracle s pl hfp hpw hids
    | none =>
      rw [initPlaylist_create name incoming n1 oracle s hfp]
      exact initPlaylist_twice_of_found name incoming n1 n2 oracle _ (emptyPlaylistRecord n1)
        (findPlaylist_append_self name s.playlists _ hfp) hpw hids
  · intro name incoming now oracle s i hi
    rw [initPlaylist_tracksOf]
    refine statusesOf_mergeTracks_completed _ incoming _ i ?_
    rw [statusesOf_fixMalformedIds name (tracksOf name s) oracle]
    exact hi

/-- Counterexample for C2 as stated: two incoming descriptors sharing one
file path (distinct ids) are both inserted by the first call, because the
dedup set is computed before the loop; the second call then promotes the
first copy (the stale set now contains the path and the second descriptor
reports COMPLETED), so the track set after two calls differs from the track
set after one. -/
theorem c2_init_counterexample :
    tracksOf "P" (initPlaylist "P"
        [mkTrack "a" "p.m4a" (some TrackStatus.pending) (some 0),
         mkTrack "b" "p.m4a" (some TrackStatus.completed) (some 0)] 1
        (initPlaylist "P"
          [mkTrack "a" "p.m4a" (some TrackStatus.pending) (some 0),
           mkTrack "b" "p.m4a" (some TrackStatus.completed) (some 0)] 0 [] emptyState).2
        (initPlaylist "P"
          [mkTrack "a" "p.m4a" (some TrackStatus.pending) (some 0),
           mkTrack "b" "p.m4a" (some TrackStatus.completed) (some 0)] 0 [] emptyState).1).1
      ≠ tracksOf "P" (initPlaylist "P"
          [mkTrack "a" "p.m4a" (some TrackStatus.pending) (some 0),
           mkTrack "b" "p.m4a" (some TrackStatus.completed) (some 0)] 0 [] emptyState).1 := by
  decide

/-- Witness for the amended C2 on two distinct-path descriptors over the
empty store. -/
theorem c2_init_idempotent_witness :
    ([mkTrack "a" "a.m4a" (some TrackStatus.pending) (some 0),
      mkTrack "b" "b.m4a" (some TrackStatus.completed) (some 0)].Pairwise
        (fun a b => a.filePath ≠ b.filePath)) ∧
    (∀ t ∈ [mkTrack "a" "a.m4a" (some TrackStatus.pending) (some 0),
            mkTrack "b" "b.m4a" (some TrackStatus.completed) (some 0)],
      t.id ≠ "P" ++ "-undefined") ∧
    initPlaylist "P"
        [mkTrack "a" "a.m4a" (some TrackStatus.pending) (some 0),
         mkTrack "b" "b.m4a" (some TrackStatus.completed) (some 0)] 1
        (initPlaylist "P"
          [mkTrack "a" "a.m4a" (some TrackStatus.pending) (some 0),
           mkTrack "b" "b.m4a" (some TrackStatus.completed) (some 0)] 0 ["0.x1y2z3w4"] emptyState).2
        (initPlaylist "P"
          [mkTrack "a" "a.m4a" (some TrackStatus.pending) (some 0),
           mkTrack "b" "b.m4a" (some TrackStatus.completed) (some 0)] 0 ["0.x1y2z3w4"] emptyState).1
      = initPlaylist "P"
          [mkTrack "a" "a.m4a" (some TrackStatus.pending) (some 0),
           mkTrack "b" "b.m4a" (some TrackStatus.completed) (some 0)] 0 ["0.x1y2z3w4"] emptyState :=
  ⟨by decide, by decide,
   c2_init_idempotent.1 "P"
     [mkTrack "a" "a.m4a" (some TrackStatus.pending) (some 0),
      mkTrack "b" "b.m4a" (some TrackStatus.completed) (some 0)] 0 1 ["0.x1y2z3w4"] emptyState
     (by decide) (by decide)⟩
